import Mathlib

/-!
# Verification of the oaidl VARIANT / SAFEARRAY / BSTR codec

Shallow embedding of the `oaidl` crate (sources: `src/variant.rs`,
`src/array.rs`, `src/bstr.rs`, `src/ptr.rs`, `src/types.rs`,
`src/errors.rs`) together with proofs about its conversion laws.

The embedding models:

* the host platform services (`SysAllocStringLen`, `SysStringLen`,
  `SysFreeString`, `SafeArrayCreate`, `SafeArrayDestroy`,
  `SafeArrayGetDim`, `SafeArrayGetVartype`, `SafeArrayGet/PutElement`,
  `SafeArrayGetLBound/UBound`, `VariantClear`) as a state structure `Host`
  threaded through every operation;
* fallible Rust code as a three-outcome result type `RRes` — `ok`,
  `err` (a typed `Result::Err`), and `fatal` (a Rust panic or abort);
* machine integers as `Nat`/`Int` with explicit `% 2^w` at the spots where
  the source contains an `as u16`/`as u32`/`as i32` cast;
* IEEE floats as their (copied, never computed-upon) bit patterns.

Union reads that would reinterpret the raw bytes of a mismatched union
member are outside the shallow embedding; they are marked with a `fatal
"unmodeled ..."` outcome and never occur on any code path exercised by a
theorem below (the library itself only ever reads a union member under a
matching discriminant, or after the tag struct was the last write).
-/

set_option maxHeartbeats 1000000

/-- Result of running a piece of Rust code: `ok`/`err` mirror `Result`,
`fatal` is a panic/abort (assertion failure, `unwrap` on `None`/`Err`,
or a dereference outside the model). -/
inductive RRes (ε α : Type) where
  | ok (a : α)
  | err (e : ε)
  | fatal (msg : String)
deriving Repr, DecidableEq

/-- `usize as u32` (the source casts lengths with `as u32` / `as ULONG`). -/
def u32cast (n : Nat) : Nat := n % 4294967296

/-- `u32 as u16` (the source casts VARTYPE values with `as u16`). -/
def u16cast (n : Nat) : Nat := n % 65536

/-- `usize as i32` (the source casts loop indices with `as i32`). -/
def i32ofNat (n : Nat) : Int :=
  let m := n % 4294967296
  if m < 2147483648 then (m : Int) else (m : Int) - 4294967296

/-- `c_long as usize` (the source casts indices with `as usize` when
tagging element errors). -/
def usizeOfInt (i : Int) : Nat := (i % 18446744073709551616).toNat

/-! ## Error taxonomy (`src/errors.rs`, plus the constructors that
`src/variant.rs` requires of `FromVariantError`)

`errors.rs` in the snapshot is from a later revision whose
`FromVariantError` lists only `VariantPtrNull` and `UnknownVarType`;
`variant.rs` additionally constructs `VarTypeDoesNotMatch`,
`UnknownPtrNull`, `DispatchPtrNull` and `CVoidPtrNull`, and converts
`FromSafeArrayError` into `FromVariantError` (variant.rs line 938).  The
model's `FromVariantError` carries the union of those constructors. -/

/-- `BStringError` (errors.rs): the one way BSTR allocation fails. -/
inductive BStringError where
  | AllocateFailed (len : Nat)
deriving Repr, DecidableEq

mutual

/-- `ElementError` (errors.rs): per-slot SAFEARRAY conversion failure. -/
inductive ElementError where
  | fromE (e : FromSafeArrElemError)
  | intoE (e : IntoSafeArrElemError)

/-- `FromSafeArrElemError` (errors.rs). -/
inductive FromSafeArrElemError where
  | GetElementFailed (hr : Int)
  | BStringFailed (e : BStringError)
  | FromVarError (e : FromVariantError)

/-- `IntoSafeArrElemError` (errors.rs). -/
inductive IntoSafeArrElemError where
  | BStringFailed (e : BStringError)
  | PutElementFailed (hr : Int)
  | IntoVariantError (e : IntoVariantError)

/-- `SafeArrayError` (errors.rs). -/
inductive SafeArrayError where
  | fromE (e : FromSafeArrayError)
  | intoE (e : IntoSafeArrayError)

/-- `FromSafeArrayError` (errors.rs). Its own doc comment states that
`SafeArrayDimsInvalid` covers "either the safe array dimensions = 0 or
> 1". -/
inductive FromSafeArrayError where
  | SafeArrayDimsInvalid (saDims : Nat)
  | VarTypeDoesNotMatch (expected found : Nat)
  | SafeArrayLBoundFailed (hr : Int)
  | SafeArrayRBoundFailed (hr : Int)
  | SafeArrayGetVartypeFailed (hr : Int)
  | ElementConversionFailed (index : Nat) (element : ElementError)
  | FromVariantError (e : FromVariantError)

/-- `IntoSafeArrayError` (errors.rs). -/
inductive IntoSafeArrayError where
  | ElementConversionFailed (index : Nat) (element : ElementError)
  | IntoVariantError (e : IntoVariantError)

/-- `IntoVariantError` (errors.rs). -/
inductive IntoVariantError where
  | AllocBStrFailed (e : BStringError)
  | SafeArrConvFailed (e : SafeArrayError)
  | CVarWrapper

/-- `FromVariantError`: union of the constructors used across the two
revisions present in the snapshot (see section comment above). -/
inductive FromVariantError where
  | VariantPtrNull
  | UnknownVarType (vt : Nat)
  | VarTypeDoesNotMatch (expected found : Nat)
  | UnknownPtrNull
  | DispatchPtrNull
  | CVoidPtrNull
  | SafeArrConvFailed (e : SafeArrayError)

end

/-! ## Decimal value transforms (`src/types.rs`: `DecWrapper`)

`rust_decimal::Decimal` is modeled by its parts: a 96-bit mantissa in
three 32-bit limbs, a sign, and a scale.  `Decimal::serialize` lays the
limbs out little-endian in bytes 4..15; `build_c_decimal` recomposes
`Lo64`/`Hi32` from exactly those bytes (types.rs lines 287-314), and
`build_rust_decimal` splits them back (lines 316-325). -/

/-- Model of `rust_decimal::Decimal`: mantissa limbs `lo`, `mid`, `hi`
(32-bit each), sign, scale. -/
structure RDecimal where
  lo : Nat
  mid : Nat
  hi : Nat
  neg : Bool
  scale : Nat
deriving Repr, DecidableEq

/-- Model of the native `DECIMAL` struct. -/
structure CDecimal where
  wReserved : Nat
  scale : Nat
  sign : Nat
  Hi32 : Nat
  Lo64 : Nat
deriving Repr, DecidableEq

/-- Byte `i` of the little-endian representation of `n`. -/
def byteOf (n i : Nat) : Nat := n / 256 ^ i % 256

/-- `DecWrapper::build_c_decimal` (types.rs lines 287-314): scale from
`dec.scale() as u8`, sign `0`/`DECIMAL_NEG` (= 0x80) from
`is_sign_positive`, `Lo64` from serialize bytes 4..11 and `Hi32` from
bytes 12..15. -/
def buildCDecimal (d : RDecimal) : CDecimal :=
  let lo64 := byteOf d.lo 0 + byteOf d.lo 1 * 256 + byteOf d.lo 2 * 65536 +
      byteOf d.lo 3 * 16777216 + byteOf d.mid 0 * 4294967296 +
      byteOf d.mid 1 * 1099511627776 + byteOf d.mid 2 * 281474976710656 +
      byteOf d.mid 3 * 72057594037927936
  let hi32 := byteOf d.hi 0 + byteOf d.hi 1 * 256 + byteOf d.hi 2 * 65536 +
      byteOf d.hi 3 * 16777216
  { wReserved := 0
    scale := d.scale % 256
    sign := if d.neg then 128 else 0
    Hi32 := hi32
    Lo64 := lo64 }

/-- `DecWrapper::build_rust_decimal` (types.rs lines 316-325):
`from_parts(Lo64 & 0xFFFFFFFF, (Lo64 >> 32) & 0xFFFFFFFF, Hi32,
sign == DECIMAL_NEG, scale)`. -/
def buildRustDecimal (c : CDecimal) : RDecimal :=
  { lo := c.Lo64 % 4294967296
    mid := c.Lo64 / 4294967296 % 4294967296
    hi := u32cast c.Hi32
    neg := c.sign = 128
    scale := c.scale }

/-- A `rust_decimal::Decimal` value as it actually occurs: 32-bit limbs
and a scale of at most 28. -/
def RDecimal.wf (d : RDecimal) : Prop :=
  d.lo < 4294967296 ∧ d.mid < 4294967296 ∧ d.hi < 4294967296 ∧ d.scale ≤ 28

instance (d : RDecimal) : Decidable d.wf := by
  unfold RDecimal.wf; infer_instance

/-! ## UTF-16 (`widestring`: `U16String::from_str` / `to_string_lossy`)

A Rust `String` is a sequence of Unicode scalar values (`List Char`).
`U16String::from_str` encodes each scalar value to one UTF-16 code unit
(BMP) or a surrogate pair; `to_string_lossy` decodes, replacing
ill-formed units with U+FFFD. -/

/-- UTF-16 encoding of one Unicode scalar value. -/
def u16EncodeChar (c : Char) : List Nat :=
  let n := c.toNat
  if n < 65536 then [n]
  else [55296 + (n - 65536) / 1024, 56320 + (n - 65536) % 1024]

/-- `U16String::from_str`: UTF-16 encoding of a Rust string. -/
def u16FromStr : List Char → List Nat
  | [] => []
  | c :: cs => u16EncodeChar c ++ u16FromStr cs

/-- U+FFFD, the replacement character used by lossy decoding. -/
def replacementChar : Char := Char.ofNat 65533

/-- A high (leading) surrogate code unit. -/
def isHighSurr (u : Nat) : Bool := 55296 ≤ u && u ≤ 56319

/-- A low (trailing) surrogate code unit. -/
def isLowSurr (u : Nat) : Bool := 56320 ≤ u && u ≤ 57343

/-- Decode one BMP code unit (guarded by the caller to be neither
surrogate half; out-of-u16-range units cannot occur in a real buffer). -/
def bmpChar (u : Nat) : Char := Char.ofNat u

/-- Combine a surrogate pair into the supplementary-plane scalar value. -/
def suppChar (u v : Nat) : Char :=
  Char.ofNat (65536 + (u - 55296) * 1024 + (v - 56320))

/-- `U16String::to_string_lossy`: UTF-16 decoding with U+FFFD for
ill-formed subsequences. -/
def u16DecodeLossy : List Nat → List Char
  | [] => []
  | [u] =>
    if isHighSurr u || isLowSurr u then [replacementChar] else [bmpChar u]
  | u :: v :: rest =>
    if isHighSurr u then
      if isLowSurr v then suppChar u v :: u16DecodeLossy rest
      else replacementChar :: u16DecodeLossy (v :: rest)
    else if isLowSurr u then replacementChar :: u16DecodeLossy (v :: rest)
    else bmpChar u :: u16DecodeLossy (v :: rest)

/-! ## VARIANT_BOOL (`src/types.rs`: `VariantBool`)

`VariantBool` wraps a `bool`; `VARIANT_BOOL` is a native `i16`, with
`VARIANT_TRUE = -1`. -/

/-- `From<VariantBool> for VARIANT_BOOL` (types.rs lines 444-453):
`true` becomes `VARIANT_TRUE` (-1), `false` becomes `0`. -/
def vbOfBool (b : Bool) : Int := if b then -1 else 0

/-- `From<VARIANT_BOOL> for VariantBool` (types.rs lines 475-480):
`VariantBool(vb < 0)`. -/
def boolOfVb (v : Int) : Bool := decide (v < 0)

/-! ## Wide strings and the host state

`U16Str` models `widestring::U16String`: a sequence of 16-bit code
units.  `Host` gathers the injected platform services: the BSTR
allocator state (`SysAllocStringLen` / `SysStringLen` /
`SysFreeString`), the SAFEARRAY store, and counters/logs for release
calls. -/

/-- Model of `widestring::U16String`: UTF-16 code units (embedded zero
units are ordinary data). -/
structure U16Str where
  units : List Nat
deriving Repr, DecidableEq

/-- One native `SAFEARRAYBOUND`: element count and lower bound. -/
structure SABound where
  cElements : Nat
  lLbound : Int
deriving Repr, DecidableEq

/-- A raw value stored in one SAFEARRAY slot (the per-kind `Element`
types of `SafeArrayElement`): numeric payloads inline, BSTRs as
(possibly null) buffer handles, decimals as native `DECIMAL`s. -/
inductive SASlot where
  | i16v (v : Int)
  | i32v (v : Int)
  | f32v (v : Nat)
  | f64v (v : Nat)
  | cyv (v : Int)
  | datev (v : Nat)
  | bstrv (v : Option Nat)
  | scodev (v : Int)
  | boolv (v : Int)
  | decv (v : CDecimal)
  | i8v (v : Int)
  | u8v (v : Nat)
  | u16v (v : Nat)
  | u32v (v : Nat)
deriving Repr, DecidableEq

/-- A native `SAFEARRAY` record: element VARTYPE, dimension count, the
first bound pair, and the element storage (`none` = never written,
i.e. still the zeroed memory `SafeArrayCreate` produced).  Only the
first bound is modeled; the decode path under scrutiny reads bounds
only when `cDims = 1`. -/
structure SARec where
  vt : Nat
  cDims : Nat
  bound : SABound
  elems : List (Option SASlot)
deriving Repr, DecidableEq

/-- The injected platform services, as persistent state:
`bufs`/`allocCalls`/`bstrFailMask`/`freeLog` model the BSTR allocator
(`bstrFailMask` is the failure oracle: `true` makes the next
`SysAllocStringLen` return null), `arrays`/`saDestroyLog` the SAFEARRAY
allocator, `varClears` counts `VariantClear` calls. -/
structure Host where
  bufs : List (List Nat)
  allocCalls : List Nat
  bstrFailMask : List Bool
  freeLog : List Nat
  arrays : List SARec
  saDestroyLog : List Nat
  varClears : Nat
deriving Repr, DecidableEq

/-- The pristine host: nothing allocated, allocator never fails. -/
def host0 : Host :=
  { bufs := [], allocCalls := [], bstrFailMask := [], freeLog := [],
    arrays := [], saDestroyLog := [], varClears := 0 }

/-- `VariantClear`: recursive native release of a VARIANT's out-of-line
payload, tracked as a call count. -/
def bumpClear (h : Host) : Host := { h with varClears := h.varClears + 1 }

/-- `SysAllocStringLen(psz, len)`: logs the requested length, consults
the failure oracle, and on success stores a buffer holding exactly the
first `len` code units (embedded zeros included). -/
def sysAllocStringLen (units : List Nat) (len : Nat) (h : Host) :
    Option Nat × Host :=
  let fail := h.bstrFailMask.headD false
  let h := { h with bstrFailMask := h.bstrFailMask.tail,
                    allocCalls := h.allocCalls ++ [len] }
  if fail then (none, h)
  else (some h.bufs.length, { h with bufs := h.bufs ++ [units.take len] })

/-- `SysStringLen`: the stored length of the buffer — a property of the
allocation, not read from a terminator. -/
def sysStringLen (id : Nat) (h : Host) : Nat := (h.bufs.getD id []).length

/-- `SysFreeString`: logged release of a buffer. -/
def sysFreeString (id : Nat) (h : Host) : Host :=
  { h with freeLog := h.freeLog ++ [id] }

/-- `BStringExt::allocate_bstr for U16String` (bstr.rs lines 79-87):
`SysAllocStringLen(self.as_ptr(), self.len() as u32)`; a null return is
`BStringError::AllocateFailed { len: sz }` with the untruncated `sz`. -/
def allocateBstr (s : U16Str) (h : Host) : RRes BStringError Nat × Host :=
  let sz := s.units.length
  let (bstr, h) := sysAllocStringLen s.units (u32cast sz) h
  match bstr with
  | some p => (.ok p, h)
  | none => (.err (.AllocateFailed sz), h)

/-- `BStringExt::from_bstr` (bstr.rs lines 112-116): asserts the
pointer is non-null (a panic on null), queries `SysStringLen`, and
copies out exactly that many code units. -/
def fromBstr {ε : Type} (bstr : Option Nat) (h : Host) : RRes ε U16Str :=
  match bstr with
  | none => .fatal "assertion failed: bstr is not null"
  | some id => .ok ⟨h.bufs.getD id []⟩

/-! ## SAFEARRAY host services (`src/array.rs` extern block) -/

/-- `DISP_E_BADINDEX` (0x8002000B as i32). -/
def dispEBadindex : Int := -2147352565

/-- `E_INVALIDARG` (0x80070057 as i32). -/
def eInvalidarg : Int := -2147024809

/-- `SafeArrayCreate(vt, cDims, rgsabound)`: appends a record whose
element storage is zeroed memory.  (Creation failure — a null return —
would make `into_safearray` panic on its `assert`; allocation of the
record itself is modeled as always succeeding, the claims under test
concern element failures.) -/
def safeArrayCreate (vt : Nat) (cDims : Nat) (b : SABound) (h : Host) :
    Nat × Host :=
  (h.arrays.length,
   { h with arrays := h.arrays ++
       [⟨vt, cDims, b, List.replicate b.cElements none⟩] })

/-- `SafeArrayDestroy`: logged release of an array record. -/
def safeArrayDestroy (psa : Nat) (h : Host) : Host :=
  { h with saDestroyLog := h.saDestroyLog ++ [psa] }

/-- `SafeArrayGetDim`. -/
def safeArrayGetDim (psa : Nat) (h : Host) : Nat :=
  ((h.arrays.getD psa ⟨0, 0, ⟨0, 0⟩, []⟩).cDims)

/-- `SafeArrayGetVartype`: hresult plus the element VARTYPE. -/
def safeArrayGetVartype (psa : Nat) (h : Host) : Int × Nat :=
  match h.arrays[psa]? with
  | some a => (0, a.vt)
  | none => (eInvalidarg, 0)

/-- `SafeArrayGetLBound(psa, 1)`. -/
def safeArrayGetLBound (psa : Nat) (h : Host) : Int × Int :=
  match h.arrays[psa]? with
  | some a => (0, a.bound.lLbound)
  | none => (eInvalidarg, 0)

/-- `SafeArrayGetUBound(psa, 1)`: `lLbound + cElements - 1`. -/
def safeArrayGetUBound (psa : Nat) (h : Host) : Int × Int :=
  match h.arrays[psa]? with
  | some a => (0, a.bound.lLbound + a.bound.cElements - 1)
  | none => (eInvalidarg, 0)

/-- `SafeArrayPutElement(psa, &ix, pv)`: writes the slot if `ix` is
within the bound pair, otherwise fails with `DISP_E_BADINDEX`. -/
def safeArrayPutElement (psa : Nat) (ix : Int) (slot : SASlot) (h : Host) :
    Int × Host :=
  match h.arrays[psa]? with
  | none => (eInvalidarg, h)
  | some a =>
    if a.bound.lLbound ≤ ix ∧ ix < a.bound.lLbound + a.bound.cElements then
      let j := (ix - a.bound.lLbound).toNat
      (0, { h with arrays :=
        h.arrays.set psa { a with elems := a.elems.set j (some slot) } })
    else (dispEBadindex, h)

/-- `SafeArrayGetElement(psa, &ix, pv)`: reads the slot if `ix` is in
range (`none` = the slot was never written: real code would read the
zeroed bytes; no theorem exercises that). -/
def safeArrayGetElement (psa : Nat) (ix : Int) (h : Host) :
    Int × Option SASlot :=
  match h.arrays[psa]? with
  | none => (eInvalidarg, none)
  | some a =>
    if a.bound.lLbound ≤ ix ∧ ix < a.bound.lLbound + a.bound.cElements then
      (0, a.elems.getD (ix - a.bound.lLbound).toNat none)
    else (dispEBadindex, none)

/-! ## The array codec (`src/array.rs`: `SafeArrayElement`,
`SafeArrayExt`)

`ElemCodec` packages one `SafeArrayElement` impl: its `SFTYPE`, the
`Element::try_convert(self)` direction (`toSlot`, which for BSTR
elements allocates through the host), and the
`Item::try_convert(element)` direction (`ofSlot`, which for BSTR
elements reads the buffer; it can panic, mirroring the null assert). -/

structure ElemCodec (α : Type) where
  sftype : Nat
  toSlot : α → Host → RRes ElementError SASlot × Host
  ofSlot : SASlot → Host → RRes ElementError α

/-- Slot mismatch on read: the raw memory of some other element type
would be reinterpreted — outside the model, and unreachable from the
library's own writes. -/
def unmodeledSlotMsg : String := "unmodeled: reinterpreted slot bytes"

/-- `SafeArrayElement for i16` (`SFTYPE = VT_I2`). -/
def i16Codec : ElemCodec Int where
  sftype := 2
  toSlot v h := (.ok (.i16v v), h)
  ofSlot s _ := match s with
    | .i16v v => .ok v
    | _ => .fatal unmodeledSlotMsg

/-- `SafeArrayElement for i32` (`SFTYPE = VT_I4`). -/
def i32Codec : ElemCodec Int where
  sftype := 3
  toSlot v h := (.ok (.i32v v), h)
  ofSlot s _ := match s with
    | .i32v v => .ok v
    | _ => .fatal unmodeledSlotMsg

/-- `SafeArrayElement for f32` (`SFTYPE = VT_R4`, bit pattern). -/
def f32Codec : ElemCodec Nat where
  sftype := 4
  toSlot v h := (.ok (.f32v v), h)
  ofSlot s _ := match s with
    | .f32v v => .ok v
    | _ => .fatal unmodeledSlotMsg

/-- `SafeArrayElement for f64` (`SFTYPE = VT_R8`, bit pattern). -/
def f64Codec : ElemCodec Nat where
  sftype := 5
  toSlot v h := (.ok (.f64v v), h)
  ofSlot s _ := match s with
    | .f64v v => .ok v
    | _ => .fatal unmodeledSlotMsg

/-- `SafeArrayElement for Currency` (`SFTYPE = VT_CY`, element `CY`;
`Currency ↔ CY` copies the scaled `i64`). -/
def cyCodec : ElemCodec Int where
  sftype := 6
  toSlot v h := (.ok (.cyv v), h)
  ofSlot s _ := match s with
    | .cyv v => .ok v
    | _ => .fatal unmodeledSlotMsg

/-- `SafeArrayElement for Date` (`SFTYPE = VT_DATE`, element `DATE` =
`f64` bit pattern). -/
def dateCodec : ElemCodec Nat where
  sftype := 7
  toSlot v h := (.ok (.datev v), h)
  ofSlot s _ := match s with
    | .datev v => .ok v
    | _ => .fatal unmodeledSlotMsg

/-- `SafeArrayElement for U16String` (`SFTYPE = VT_BSTR`):
`TryConvert<U16String, ElementError> for BSTR` clones and allocates a
BSTR (bstr.rs lines 236-248); `TryConvert<BSTR, ElementError> for
U16String` asserts non-null and copies the buffer (lines 250-260). -/
def bstrCodec : ElemCodec U16Str where
  sftype := 8
  toSlot s h :=
    match allocateBstr s h with
    | (.ok p, h) => (.ok (.bstrv (some p)), h)
    | (.err bse, h) => (.err (.intoE (.BStringFailed bse)), h)
    | (.fatal m, h) => (.fatal m, h)
  ofSlot s h := match s with
    | .bstrv b => fromBstr b h
    | _ => .fatal unmodeledSlotMsg

/-- `SafeArrayElement for SCode` (`SFTYPE = VT_ERROR`, element `SCODE`). -/
def scodeCodec : ElemCodec Int where
  sftype := 10
  toSlot v h := (.ok (.scodev v), h)
  ofSlot s _ := match s with
    | .scodev v => .ok v
    | _ => .fatal unmodeledSlotMsg

/-- `SafeArrayElement for VariantBool` (`SFTYPE = VT_BOOL`, element
`VARIANT_BOOL`): written as `-1`/`0`, read back as `vb < 0`. -/
def boolCodec : ElemCodec Bool where
  sftype := 11
  toSlot b h := (.ok (.boolv (vbOfBool b)), h)
  ofSlot s _ := match s with
    | .boolv v => .ok (boolOfVb v)
    | _ => .fatal unmodeledSlotMsg

/-- `SafeArrayElement for DecWrapper` (`SFTYPE = VT_DECIMAL`, element
`DECIMAL`): through `build_c_decimal`/`build_rust_decimal`. -/
def decCodec : ElemCodec RDecimal where
  sftype := 14
  toSlot d h := (.ok (.decv (buildCDecimal d)), h)
  ofSlot s _ := match s with
    | .decv c => .ok (buildRustDecimal c)
    | _ => .fatal unmodeledSlotMsg

/-- `SafeArrayElement for i8` (`SFTYPE = VT_I1`). -/
def i8Codec : ElemCodec Int where
  sftype := 16
  toSlot v h := (.ok (.i8v v), h)
  ofSlot s _ := match s with
    | .i8v v => .ok v
    | _ => .fatal unmodeledSlotMsg

/-- `SafeArrayElement for u8` (`SFTYPE = VT_UI1`). -/
def u8Codec : ElemCodec Nat where
  sftype := 17
  toSlot v h := (.ok (.u8v v), h)
  ofSlot s _ := match s with
    | .u8v v => .ok v
    | _ => .fatal unmodeledSlotMsg

/-- `SafeArrayElement for u16` (`SFTYPE = VT_UI2`). -/
def u16Codec : ElemCodec Nat where
  sftype := 18
  toSlot v h := (.ok (.u16v v), h)
  ofSlot s _ := match s with
    | .u16v v => .ok v
    | _ => .fatal unmodeledSlotMsg

/-- `SafeArrayElement for u32` (`SFTYPE = VT_UI4`). -/
def u32Codec : ElemCodec Nat where
  sftype := 19
  toSlot v h := (.ok (.u32v v), h)
  ofSlot s _ := match s with
    | .u32v v => .ok v
    | _ => .fatal unmodeledSlotMsg

/-- `SafeArrayElement for Int` (`SFTYPE = VT_INT`, element `i32`). -/
def intCodec : ElemCodec Int where
  sftype := 22
  toSlot v h := (.ok (.i32v v), h)
  ofSlot s _ := match s with
    | .i32v v => .ok v
    | _ => .fatal unmodeledSlotMsg

/-- `SafeArrayElement for UInt` (`SFTYPE = VT_UINT`, element `u32`). -/
def uintCodec : ElemCodec Nat where
  sftype := 23
  toSlot v h := (.ok (.u32v v), h)
  ofSlot s _ := match s with
    | .u32v v => .ok v
    | _ => .fatal unmodeledSlotMsg

/-- `SafeArrayElement::into_safearray(self, psa, ix)` (array.rs lines
170-180, and the structurally identical overrides): convert the item to
its raw element, then `SafeArrayPutElement`; a nonzero hresult is
`PutElementFailed`. -/
def saeIntoSafearray {α : Type} (c : ElemCodec α) (x : α) (psa : Nat)
    (ix : Int) (h : Host) : RRes ElementError Unit × Host :=
  match c.toSlot x h with
  | (.ok slot, h) =>
    let (hr, h) := safeArrayPutElement psa ix slot h
    if hr = 0 then (.ok (), h)
    else (.err (.intoE (.PutElementFailed hr)), h)
  | (.err e, h) => (.err e, h)
  | (.fatal m, h) => (.fatal m, h)

/-- `SafeArrayElement::from_safearray(psa, ix)` (array.rs lines
153-167): `SafeArrayGetElement` into a zeroed staging value; a nonzero
hresult is `GetElementFailed`. -/
def saeFromSafearray (psa : Nat) (ix : Int) (h : Host) :
    RRes ElementError SASlot :=
  let (hr, slot) := safeArrayGetElement psa ix h
  if hr = 0 then
    match slot with
    | some s => .ok s
    | none => .fatal "unmodeled: read of a never-written zeroed slot"
  else .err (.fromE (.GetElementFailed hr))

/-- The `for (ix, elem) in self.enumerate()` write loop of
`into_safearray` (array.rs lines 520-530); on the first element
failure it stops with that element's enumerate index. -/
def putLoop {α : Type} (c : ElemCodec α) (psa : Nat) :
    List α → Nat → Host → RRes (Nat × ElementError) Unit × Host
  | [], _, h => (.ok (), h)
  | x :: rest, ix, h =>
    match saeIntoSafearray c x psa (i32ofNat ix) h with
    | (.ok (), h) => putLoop c psa rest (ix + 1) h
    | (.err e, h) => (.err (ix, e), h)
    | (.fatal m, h) => (.fatal m, h)

/-- `SafeArrayExt::into_safearray` (array.rs lines 509-535): create a
1-dimensional array with lower bound 0 and `len() as u32` elements and
element VARTYPE `SFTYPE`, write every element, and either hand the
array to the caller (`psa.cast()`, defusing the `SafeArrayDestructor`
scope guard) or — on an element failure — let the guard run
`SafeArrayDestroy` and return the element error tagged with the
failing index. -/
def intoSafearray {α : Type} (c : ElemCodec α) (items : List α)
    (h : Host) : RRes SafeArrayError Nat × Host :=
  let cElements := u32cast items.length
  let (psa, h) := safeArrayCreate (u16cast c.sftype) 1 ⟨cElements, 0⟩ h
  match putLoop c psa items 0 h with
  | (.ok (), h) => (.ok psa, h)
  | (.err (ix, e), h) =>
    (.err (.intoE (.ElementConversionFailed ix e)), safeArrayDestroy psa h)
  | (.fatal m, h) => (.fatal m, h)

/-- The `for ix in l_bound..=r_bound` read loop of `from_safearray`
(array.rs lines 580-601): get each element, convert it, push; either
failure aborts with the element error and the current index. -/
def getLoop {α : Type} (c : ElemCodec α) (psa : Nat) :
    Int → Nat → List α → Host → RRes (Int × ElementError) (List α) × Host
  | _, 0, acc, h => (.ok acc, h)
  | ix, n + 1, acc, h =>
    match saeFromSafearray psa ix h with
    | .ok slot =>
      match c.ofSlot slot h with
      | .ok v => getLoop c psa (ix + 1) n (acc ++ [v]) h
      | .err ex => (.err (ix, ex), h)
      | .fatal m => (.fatal m, h)
    | .err e => (.err (ix, e), h)
    | .fatal m => (.fatal m, h)

/-- `SafeArrayExt::from_safearray` (array.rs lines 537-608): rebind the
pointer under the `SafeArrayDestructor` guard (so every return path
releases the record once), `assert!(sa_dims > 0)` — a panic when the
dimension count is 0 — then check the element VARTYPE, then either walk
the one-dimensional bounds or fail with `SafeArrayDimsInvalid`. -/
def fromSafearray {α : Type} (c : ElemCodec α) (psa : Nat) (h : Host) :
    RRes SafeArrayError (List α) × Host :=
  let saDims := safeArrayGetDim psa h
  if saDims = 0 then (.fatal "assertion failed: sa_dims > 0", h)
  else
    let (hrV, vt) := safeArrayGetVartype psa h
    if hrV ≠ 0 then
      (.err (.fromE (.SafeArrayGetVartypeFailed hrV)), safeArrayDestroy psa h)
    else if vt ≠ c.sftype then
      (.err (.fromE (.VarTypeDoesNotMatch c.sftype vt)), safeArrayDestroy psa h)
    else if saDims = 1 then
      let (hrL, lBound) := safeArrayGetLBound psa h
      if hrL ≠ 0 then
        (.err (.fromE (.SafeArrayLBoundFailed hrL)), safeArrayDestroy psa h)
      else
        let (hrR, rBound) := safeArrayGetUBound psa h
        if hrR ≠ 0 then
          (.err (.fromE (.SafeArrayRBoundFailed hrR)), safeArrayDestroy psa h)
        else
          match getLoop c psa lBound (rBound + 1 - lBound).toNat [] h with
          | (.ok vc, h) => (.ok vc, safeArrayDestroy psa h)
          | (.err (ix, e), h) =>
            (.err (.fromE (.ElementConversionFailed (usizeOfInt ix) e)),
              safeArrayDestroy psa h)
          | (.fatal m, h) => (.fatal m, h)
    else
      (.err (.fromE (.SafeArrayDimsInvalid saDims)), safeArrayDestroy psa h)

/-- A codec whose `toSlot` leaves the SAFEARRAY store and its release
log alone (true of every `SafeArrayElement` impl in the crate: only the
BSTR one touches the host at all, and only the string allocator part). -/
def CodecPreservesSA {α : Type} (c : ElemCodec α) : Prop :=
  ∀ (a : α) (h : Host),
    (c.toSlot a h).2.arrays = h.arrays ∧
    (c.toSlot a h).2.saDestroyLog = h.saDestroyLog

/-! ## The owning pointer (`src/ptr.rs`: `Ptr<T, D>`) -/

/-- Model of `Ptr<T, D>`: the `Option<NonNull<T>>` slot.  The release
policy `D` is passed to the operations as a function from the address
to the release events it emits (a `(policy, address)` pair per call for
the policy under scrutiny; `DefaultDestructor` emits nothing). -/
structure MPtr where
  inner : Option Nat
deriving Repr, DecidableEq

/-- `Drop for Ptr<T, D>` (ptr.rs lines 63-72): `if let Some(nn) =
self.inner.take() { D::drop(nn) }` — the policy runs only on a live
slot, and the slot is emptied first. -/
def MPtr.dropWith (d : Nat → List (Nat × Nat)) (p : MPtr) :
    MPtr × List (Nat × Nat) :=
  match p.inner with
  | some a => (⟨none⟩, d a)
  | none => (⟨none⟩, [])

/-- `Ptr::cast` (ptr.rs lines 145-157): takes the slot out of `self`
(so `self`'s own `Drop` finds nothing and the old policy is never run)
and builds the new handle; `unreachable!()` on an already-emptied
handle. -/
def MPtr.cast (p : MPtr) : RRes Unit (MPtr × MPtr) :=
  match p.inner with
  | some a => .ok (⟨some a⟩, ⟨none⟩)
  | none => .fatal "internal error: entered unreachable code"

/-! ## The VARIANT record (`src/variant.rs`)

`VARIANT { n1: VARIANT_n1 }` where `VARIANT_n1` is a union of the
16-byte tag struct `__tagVARIANT { vt, wReserved1..3, n3 }` and the
16-byte `DECIMAL`.  `VARIANT_n3` is the 8-byte payload union.  Unions
are modeled tagged by their last-written member; reading a different
member is byte reinterpretation and is modeled only where the library
relies on it (reading `decVal` out of a union whose last write was the
tag struct with a zeroed `n3` — the layout overlap is exact there:
`wReserved ← vt`, `scale ← w1 & 0xFF`, `sign ← w1 >> 8`,
`Hi32 ← w2 + (w3 << 16)`, `Lo64 ← n3 bytes = 0`). -/

mutual

/-- The `VARIANT_n3` payload union, tagged by last-written member.
Pointer-valued members carry `Option` (null / pointee); `Box`-backed
members carry the pointee inline; `parray` carries the SAFEARRAY
handle; `zeroed` is `mem::zeroed()` (all-zero bytes, never written). -/
inductive N3 where
  | llVal (v : Int)
  | lVal (v : Int)
  | bVal (v : Nat)
  | iVal (v : Int)
  | fltVal (v : Nat)
  | dblVal (v : Nat)
  | boolVal (v : Int)
  | scode (v : Int)
  | cyVal (v : Int)
  | date (v : Nat)
  | bstrVal (v : Option Nat)
  | punkVal (v : Option Nat)
  | pdispVal (v : Option Nat)
  | pbVal (v : Option Nat)
  | piVal (v : Option Int)
  | plVal (v : Option Int)
  | pllVal (v : Option Int)
  | pfltVal (v : Option Nat)
  | pdblVal (v : Option Nat)
  | pboolVal (v : Option Int)
  | pscode (v : Option Int)
  | pcyVal (v : Option Int)
  | pdate (v : Option Nat)
  | pbstrVal (v : Option (Option Nat))
  | ppunkVal (v : Option (Option Nat))
  | ppdispVal (v : Option (Option Nat))
  | pvarVal (v : Option N1)
  | parray (v : Option Nat)
  | byref (v : Option Nat)
  | cVal (v : Int)
  | uiVal (v : Nat)
  | ulVal (v : Nat)
  | ullVal (v : Nat)
  | intVal (v : Int)
  | uintVal (v : Nat)
  | pdecVal (v : Option CDecimal)
  | pcVal (v : Option Int)
  | puiVal (v : Option Nat)
  | pulVal (v : Option Nat)
  | pullVal (v : Option Nat)
  | pintVal (v : Option Int)
  | puintVal (v : Option Nat)
  | zeroed

/-- The `VARIANT_n1` union: the tag struct (`n2`, flattened:
discriminant, the three reserved words, and the `n3` payload) or a
`DECIMAL` (`dec`).  A `VARIANT` is exactly this union, so `N1` doubles
as the value-record type. -/
inductive N1 where
  | n2 (vt w1 w2 w3 : Nat) (p : N3)
  | dec (d : CDecimal)

end

/-- A heap-allocated `VARIANT` (what a `Ptr<VARIANT>` points to). -/
abbrev VarRec := N1

/-- The common tail of every `into_variant` in the `variant_impl!`
macro (variant.rs lines 582-598) and of `Variant::into_variant`,
`VtEmpty`/`VtNull::into_variant`: build `__tagVARIANT { vt: VARTYPE as
u16, wReserved1: 0, wReserved2: 0, wReserved3: 0, n3 }` and write it
over the whole `n1` union (the last write, so it is the union's
content — which is what clobbers a previously written `decVal`). -/
def mkVar (vt : Nat) (p : N3) : VarRec := .n2 (u16cast vt) 0 0 0 p

/-- Element kinds a `Vec<T>` can round-trip through `SafeArrayExt`
with the `SafeArrayElement` impls and `TryConvert` impls present in the
snapshot (interface-pointer elements lack the required
`TryConvert<Element, ElementError> for Item` impl and the
variant-element impls refer to types of another revision, so `Vec`s of
those do not satisfy the blanket impl's bounds). -/
inductive SAKind where
  | ki16 | ki32 | kf32 | kf64 | kcy | kdate | kbstr | kscode
  | kbool | kdec | ki8 | ku8 | ku16 | ku32 | kint | kuint
deriving Repr, DecidableEq

/-- A homogeneous sequence value, one constructor per supported element
kind. -/
inductive SAVal where
  | i16s (l : List Int)
  | i32s (l : List Int)
  | f32s (l : List Nat)
  | f64s (l : List Nat)
  | cys (l : List Int)
  | dates (l : List Nat)
  | bstrs (l : List U16Str)
  | scodes (l : List Int)
  | bools (l : List Bool)
  | decs (l : List RDecimal)
  | i8s (l : List Int)
  | u8s (l : List Nat)
  | u16s (l : List Nat)
  | u32s (l : List Nat)
  | ints (l : List Int)
  | uints (l : List Nat)
deriving Repr, DecidableEq

/-- The element kind of a sequence value. -/
def SAVal.kind : SAVal → SAKind
  | .i16s _ => .ki16
  | .i32s _ => .ki32
  | .f32s _ => .kf32
  | .f64s _ => .kf64
  | .cys _ => .kcy
  | .dates _ => .kdate
  | .bstrs _ => .kbstr
  | .scodes _ => .kscode
  | .bools _ => .kbool
  | .decs _ => .kdec
  | .i8s _ => .ki8
  | .u8s _ => .ku8
  | .u16s _ => .ku16
  | .u32s _ => .ku32
  | .ints _ => .kint
  | .uints _ => .kuint

/-- The kinds of the `VariantExt` impls in variant.rs: one constructor
per implementing Rust type (`kvariant` nests the wrapped kind, `karr`
carries the array element kind; `kdecW`/`kdec` are `DecWrapper` /
`Decimal`, which share `VT_DECIMAL`, likewise the `PDECIMAL` pair). -/
inductive VKind where
  | ki64 | ki32 | ku8 | ki16 | kf32 | kf64 | kbool | kscode
  | kcy | kdate | kstring | kunknown | kdispatch
  | kboxU8 | kboxI16 | kboxI32 | kboxI64 | kboxF32 | kboxF64
  | kboxBool | kboxScode | kboxCy | kboxDate | kboxString
  | kboxUnknown | kboxDispatch
  | kvariant (inner : VKind)
  | karr (elem : SAKind)
  | kbyref
  | ki8 | ku16 | ku32 | ku64 | kint | kuint
  | kboxDecW | kboxDec
  | kboxI8 | kboxU16 | kboxU32 | kboxU64 | kboxInt | kboxUInt
  | kdecW | kdec
  | kempty | knull
deriving Repr, DecidableEq

/-- `VARTYPE` constant of each kind (the `VARTYPE` associated consts;
byref kinds are `VT_BYREF | base` = 16384 + base). -/
def vkindTag : VKind → Nat
  | .ki64 => 20
  | .ki32 => 3
  | .ku8 => 17
  | .ki16 => 2
  | .kf32 => 4
  | .kf64 => 5
  | .kbool => 11
  | .kscode => 10
  | .kcy => 6
  | .kdate => 7
  | .kstring => 8
  | .kunknown => 13
  | .kdispatch => 9
  | .kboxU8 => 16401
  | .kboxI16 => 16386
  | .kboxI32 => 16387
  | .kboxI64 => 16404
  | .kboxF32 => 16388
  | .kboxF64 => 16389
  | .kboxBool => 16395
  | .kboxScode => 16394
  | .kboxCy => 16390
  | .kboxDate => 16391
  | .kboxString => 16392
  | .kboxUnknown => 16397
  | .kboxDispatch => 16393
  | .kvariant _ => 12
  | .karr _ => 8192
  | .kbyref => 16384
  | .ki8 => 16
  | .ku16 => 18
  | .ku32 => 19
  | .ku64 => 21
  | .kint => 22
  | .kuint => 23
  | .kboxDecW => 16398
  | .kboxDec => 16398
  | .kboxI8 => 16400
  | .kboxU16 => 16402
  | .kboxU32 => 16403
  | .kboxU64 => 16405
  | .kboxInt => 16406
  | .kboxUInt => 16407
  | .kdecW => 14
  | .kdec => 14
  | .kempty => 0
  | .knull => 1

/-- A value of some supported kind: one constructor per `VariantExt`
impl.  Numeric payloads are the copied machine value (floats and dates
as bit patterns); `vunknown`/`vdispatch`/`vbyref` carry the non-null
interface/raw pointer value of the `Ptr`; `Box` kinds carry the
pointee; `vvariant` is `Variant<T>` nesting; `varr` a `Vec` of a
supported element kind; `vdecW`/`vdec` the two `VT_DECIMAL` impls. -/
inductive VValue where
  | vi64 (v : Int)
  | vi32 (v : Int)
  | vu8 (v : Nat)
  | vi16 (v : Int)
  | vf32 (v : Nat)
  | vf64 (v : Nat)
  | vbool (b : Bool)
  | vscode (v : Int)
  | vcy (v : Int)
  | vdate (v : Nat)
  | vstring (s : List Char)
  | vunknown (p : Nat)
  | vdispatch (p : Nat)
  | vboxU8 (v : Nat)
  | vboxI16 (v : Int)
  | vboxI32 (v : Int)
  | vboxI64 (v : Int)
  | vboxF32 (v : Nat)
  | vboxF64 (v : Nat)
  | vboxBool (b : Bool)
  | vboxScode (v : Int)
  | vboxCy (v : Int)
  | vboxDate (v : Nat)
  | vboxString (s : List Char)
  | vboxUnknown (p : Nat)
  | vboxDispatch (p : Nat)
  | vvariant (inner : VValue)
  | varr (a : SAVal)
  | vbyref (p : Nat)
  | vi8 (v : Int)
  | vu16 (v : Nat)
  | vu32 (v : Nat)
  | vu64 (v : Nat)
  | vint (v : Int)
  | vuint (v : Nat)
  | vboxDecW (d : RDecimal)
  | vboxDec (d : RDecimal)
  | vboxI8 (v : Int)
  | vboxU16 (v : Nat)
  | vboxU32 (v : Nat)
  | vboxU64 (v : Nat)
  | vboxInt (v : Int)
  | vboxUInt (v : Nat)
  | vdecW (d : RDecimal)
  | vdec (d : RDecimal)
  | vempty
  | vnull
deriving Repr, DecidableEq

/-- The kind of a value. -/
def VValue.vkind : VValue → VKind
  | .vi64 _ => .ki64
  | .vi32 _ => .ki32
  | .vu8 _ => .ku8
  | .vi16 _ => .ki16
  | .vf32 _ => .kf32
  | .vf64 _ => .kf64
  | .vbool _ => .kbool
  | .vscode _ => .kscode
  | .vcy _ => .kcy
  | .vdate _ => .kdate
  | .vstring _ => .kstring
  | .vunknown _ => .kunknown
  | .vdispatch _ => .kdispatch
  | .vboxU8 _ => .kboxU8
  | .vboxI16 _ => .kboxI16
  | .vboxI32 _ => .kboxI32
  | .vboxI64 _ => .kboxI64
  | .vboxF32 _ => .kboxF32
  | .vboxF64 _ => .kboxF64
  | .vboxBool _ => .kboxBool
  | .vboxScode _ => .kboxScode
  | .vboxCy _ => .kboxCy
  | .vboxDate _ => .kboxDate
  | .vboxString _ => .kboxString
  | .vboxUnknown _ => .kboxUnknown
  | .vboxDispatch _ => .kboxDispatch
  | .vvariant v => .kvariant v.vkind
  | .varr a => .karr a.kind
  | .vbyref _ => .kbyref
  | .vi8 _ => .ki8
  | .vu16 _ => .ku16
  | .vu32 _ => .ku32
  | .vu64 _ => .ku64
  | .vint _ => .kint
  | .vuint _ => .kuint
  | .vboxDecW _ => .kboxDecW
  | .vboxDec _ => .kboxDec
  | .vboxI8 _ => .kboxI8
  | .vboxU16 _ => .kboxU16
  | .vboxU32 _ => .kboxU32
  | .vboxU64 _ => .kboxU64
  | .vboxInt _ => .kboxInt
  | .vboxUInt _ => .kboxUInt
  | .vdecW _ => .kdecW
  | .vdec _ => .kdec
  | .vempty => .kempty
  | .vnull => .knull

/-- See the union-modeling note on `N1`: reading a union member other
than the last-written one reinterprets raw bytes. -/
def unmodeledUnionMsg : String := "unmodeled: reinterpreted union bytes"

/-- Dereferencing a null pointer (`**n_ptr` with a null payload) is
undefined behavior in the source; the model flags it as an abort. -/
def nullDerefMsg : String := "unmodeled: dereference of a null pointer"

/-- `Vec<T>::into_safearray` dispatch: `slf.into_iter().into_safearray()`
for each supported element kind. -/
def encodeSAVal : SAVal → Host → RRes SafeArrayError Nat × Host
  | .i16s l, h => intoSafearray i16Codec l h
  | .i32s l, h => intoSafearray i32Codec l h
  | .f32s l, h => intoSafearray f32Codec l h
  | .f64s l, h => intoSafearray f64Codec l h
  | .cys l, h => intoSafearray cyCodec l h
  | .dates l, h => intoSafearray dateCodec l h
  | .bstrs l, h => intoSafearray bstrCodec l h
  | .scodes l, h => intoSafearray scodeCodec l h
  | .bools l, h => intoSafearray boolCodec l h
  | .decs l, h => intoSafearray decCodec l h
  | .i8s l, h => intoSafearray i8Codec l h
  | .u8s l, h => intoSafearray u8Codec l h
  | .u16s l, h => intoSafearray u16Codec l h
  | .u32s l, h => intoSafearray u32Codec l h
  | .ints l, h => intoSafearray intCodec l h
  | .uints l, h => intoSafearray uintCodec l h

/-- The array arm of the `Vec<T>` `from_variant` closure (variant.rs
lines 934-941): a null `SAFEARRAY` pointer is handed to a function of
the other revision that requires non-null (unmodeled); otherwise
`from_safearray` runs and its error is wrapped into the variant error. -/
def decodeArr {α : Type} (c : ElemCodec α) (pack : List α → SAVal)
    (pa : Option Nat) (h : Host) : RRes FromVariantError VValue × Host :=
  match pa with
  | none => (.fatal "unmodeled: null SAFEARRAY pointer", h)
  | some psa =>
    match fromSafearray c psa h with
    | (.ok l, h) => (.ok (.varr (pack l)), h)
    | (.err e, h) => (.err (.SafeArrConvFailed e), h)
    | (.fatal m, h) => (.fatal m, h)

/-- The head of every macro-generated `from_variant` (variant.rs lines
566-580): arm a `VariantDestructor` on the record, read the
discriminant out of the tag struct, and on mismatch return
`VarTypeDoesNotMatch { expected: VARTYPE, found: vt }` with the armed
destructor running `VariantClear`; on match run the kind's read closure
(after which the destructor is defused, so reader outcomes do not
clear).  Reading `vt` out of a union whose last write was `decVal` is
byte reinterpretation (never produced by this library). -/
def vtCheck (expected : Nat) (rec : VarRec) (h : Host)
    (reader : Nat → Nat → Nat → Nat → N3 → Host →
      RRes FromVariantError VValue × Host) :
    RRes FromVariantError VValue × Host :=
  match rec with
  | .dec _ => (.fatal unmodeledUnionMsg, h)
  | .n2 vt w1 w2 w3 p =>
    if vt = expected then reader vt w1 w2 w3 p h
    else (.err (.VarTypeDoesNotMatch expected vt), bumpClear h)

/-- `VariantExt::into_variant` for every impl in variant.rs: write the
kind's payload member, then write the tag struct (vt = `VARTYPE as
u16`, all three reserved words zero, the local `n3`) over the whole
`n1` union — the tag-struct write is last, so for the two `n1`-slot
kinds (`DecWrapper`/`Decimal`, `VT_DECIMAL`) it lands on top of the
just-written `decVal` and zeroes it out (the dead first write is kept
as a shadowed binding). -/
def encodeVar : VValue → Host → RRes IntoVariantError VarRec × Host
  | .vi64 v, h => (.ok (mkVar 20 (.llVal v)), h)
  | .vi32 v, h => (.ok (mkVar 3 (.lVal v)), h)
  | .vu8 v, h => (.ok (mkVar 17 (.bVal v)), h)
  | .vi16 v, h => (.ok (mkVar 2 (.iVal v)), h)
  | .vf32 v, h => (.ok (mkVar 4 (.fltVal v)), h)
  | .vf64 v, h => (.ok (mkVar 5 (.dblVal v)), h)
  | .vbool b, h => (.ok (mkVar 11 (.boolVal (vbOfBool b))), h)
  | .vscode v, h => (.ok (mkVar 10 (.scode v)), h)
  | .vcy v, h => (.ok (mkVar 6 (.cyVal v)), h)
  | .vdate v, h => (.ok (mkVar 7 (.date v)), h)
  | .vstring s, h =>
    match allocateBstr ⟨u16FromStr s⟩ h with
    | (.ok p, h) => (.ok (mkVar 8 (.bstrVal (some p))), h)
    | (.err bse, h) => (.err (.AllocBStrFailed bse), h)
    | (.fatal m, h) => (.fatal m, h)
  | .vunknown p, h => (.ok (mkVar 13 (.punkVal (some p))), h)
  | .vdispatch p, h => (.ok (mkVar 9 (.pdispVal (some p))), h)
  | .vboxU8 v, h => (.ok (mkVar 16401 (.pbVal (some v))), h)
  | .vboxI16 v, h => (.ok (mkVar 16386 (.piVal (some v))), h)
  | .vboxI32 v, h => (.ok (mkVar 16387 (.plVal (some v))), h)
  | .vboxI64 v, h => (.ok (mkVar 16404 (.pllVal (some v))), h)
  | .vboxF32 v, h => (.ok (mkVar 16388 (.pfltVal (some v))), h)
  | .vboxF64 v, h => (.ok (mkVar 16389 (.pdblVal (some v))), h)
  | .vboxBool b, h => (.ok (mkVar 16395 (.pboolVal (some (vbOfBool b)))), h)
  | .vboxScode v, h => (.ok (mkVar 16394 (.pscode (some v))), h)
  | .vboxCy v, h => (.ok (mkVar 16390 (.pcyVal (some v))), h)
  | .vboxDate v, h => (.ok (mkVar 16391 (.pdate (some v))), h)
  | .vboxString s, h =>
    -- `bstr.allocate_bstr().unwrap()` (variant.rs line 870): an
    -- allocation failure panics here rather than erroring.
    match allocateBstr ⟨u16FromStr s⟩ h with
    | (.ok p, h) => (.ok (mkVar 16392 (.pbstrVal (some (some p)))), h)
    | (.err _, h) => (.fatal "called Result unwrap on an Err value", h)
    | (.fatal m, h) => (.fatal m, h)
  | .vboxUnknown p, h => (.ok (mkVar 16397 (.ppunkVal (some (some p)))), h)
  | .vboxDispatch p, h => (.ok (mkVar 16393 (.ppdispVal (some (some p)))), h)
  | .vvariant v, h =>
    -- macro closure: `slf.into_variant().unwrap()` resolves to the
    -- inherent `Variant::into_variant` (variant.rs lines 471-493),
    -- which wraps `T::into_variant(self.0)?` in a VT_VARIANT record;
    -- the macro then wraps that pointer in a second VT_VARIANT record.
    match encodeVar v h with
    | (.ok inner, h) =>
      (.ok (mkVar 12 (.pvarVal (some (mkVar 12 (.pvarVal (some inner)))))), h)
    | (.err _, h) => (.fatal "called Result unwrap on an Err value", h)
    | (.fatal m, h) => (.fatal m, h)
  | .varr a, h =>
    match encodeSAVal a h with
    | (.ok psa, h) => (.ok (mkVar 8192 (.parray (some psa))), h)
    | (.err isae, h) => (.err (.SafeArrConvFailed isae), h)
    | (.fatal m, h) => (.fatal m, h)
  | .vbyref p, h => (.ok (mkVar 16384 (.byref (some p))), h)
  | .vi8 v, h => (.ok (mkVar 16 (.cVal v)), h)
  | .vu16 v, h => (.ok (mkVar 18 (.uiVal v)), h)
  | .vu32 v, h => (.ok (mkVar 19 (.ulVal v)), h)
  | .vu64 v, h => (.ok (mkVar 21 (.ullVal v)), h)
  | .vint v, h => (.ok (mkVar 22 (.intVal v)), h)
  | .vuint v, h => (.ok (mkVar 23 (.uintVal v)), h)
  | .vboxDecW d, h => (.ok (mkVar 16398 (.pdecVal (some (buildCDecimal d)))), h)
  | .vboxDec d, h => (.ok (mkVar 16398 (.pdecVal (some (buildCDecimal d)))), h)
  | .vboxI8 v, h => (.ok (mkVar 16400 (.pcVal (some v))), h)
  | .vboxU16 v, h => (.ok (mkVar 16402 (.puiVal (some v))), h)
  | .vboxU32 v, h => (.ok (mkVar 16403 (.pulVal (some v))), h)
  | .vboxU64 v, h => (.ok (mkVar 16405 (.pullVal (some v))), h)
  | .vboxInt v, h => (.ok (mkVar 16406 (.pintVal (some v))), h)
  | .vboxUInt v, h => (.ok (mkVar 16407 (.puintVal (some v))), h)
  | .vdecW d, h =>
    -- @write n1: `*n1.decVal_mut() = DECIMAL::from(slf)` — immediately
    -- overwritten by the tag struct below (the macro tail), so the
    -- record's payload bytes end up zeroed.
    let _n1 := N1.dec (buildCDecimal d)
    (.ok (mkVar 14 .zeroed), h)
  | .vdec d, h =>
    let _n1 := N1.dec (buildCDecimal d)
    (.ok (mkVar 14 .zeroed), h)
  | .vempty, h => (.ok (mkVar 0 .zeroed), h)
  | .vnull, h => (.ok (mkVar 1 .zeroed), h)

/-- `VariantExt::from_variant` for every impl in variant.rs, dispatched
on the expected kind: `VtEmpty`/`VtNull` (lines 1147-1150, 1171-1174)
accept any discriminant — they arm the destructor and return their unit
value, the drop clearing the record; every other kind goes through the
macro's discriminant check (`vtCheck`) and then its read closure. -/
def decodeVar : VKind → VarRec → Host → RRes FromVariantError VValue × Host
  | .kempty, _, h => (.ok .vempty, bumpClear h)
  | .knull, _, h => (.ok .vnull, bumpClear h)
  | .ki64, rec, h => vtCheck 20 rec h fun _ _ _ _ p h =>
    match p with
    | .llVal v => (.ok (.vi64 v), h)
    | _ => (.fatal unmodeledUnionMsg, h)
  | .ki32, rec, h => vtCheck 3 rec h fun _ _ _ _ p h =>
    match p with
    | .lVal v => (.ok (.vi32 v), h)
    | _ => (.fatal unmodeledUnionMsg, h)
  | .ku8, rec, h => vtCheck 17 rec h fun _ _ _ _ p h =>
    match p with
    | .bVal v => (.ok (.vu8 v), h)
    | _ => (.fatal unmodeledUnionMsg, h)
  | .ki16, rec, h => vtCheck 2 rec h fun _ _ _ _ p h =>
    match p with
    | .iVal v => (.ok (.vi16 v), h)
    | _ => (.fatal unmodeledUnionMsg, h)
  | .kf32, rec, h => vtCheck 4 rec h fun _ _ _ _ p h =>
    match p with
    | .fltVal v => (.ok (.vf32 v), h)
    | _ => (.fatal unmodeledUnionMsg, h)
  | .kf64, rec, h => vtCheck 5 rec h fun _ _ _ _ p h =>
    match p with
    | .dblVal v => (.ok (.vf64 v), h)
    | _ => (.fatal unmodeledUnionMsg, h)
  | .kbool, rec, h => vtCheck 11 rec h fun _ _ _ _ p h =>
    match p with
    | .boolVal v => (.ok (.vbool (boolOfVb v)), h)
    | _ => (.fatal unmodeledUnionMsg, h)
  | .kscode, rec, h => vtCheck 10 rec h fun _ _ _ _ p h =>
    match p with
    | .scode v => (.ok (.vscode v), h)
    | _ => (.fatal unmodeledUnionMsg, h)
  | .kcy, rec, h => vtCheck 6 rec h fun _ _ _ _ p h =>
    match p with
    | .cyVal v => (.ok (.vcy v), h)
    | _ => (.fatal unmodeledUnionMsg, h)
  | .kdate, rec, h => vtCheck 7 rec h fun _ _ _ _ p h =>
    match p with
    | .date v => (.ok (.vdate v), h)
    | _ => (.fatal unmodeledUnionMsg, h)
  | .kstring, rec, h => vtCheck 8 rec h fun _ _ _ _ p h =>
    match p with
    | .bstrVal b =>
      -- `U16String::from_bstr(*n_ptr)` asserts non-null (a panic),
      -- then reads by queried length; `to_string_lossy` decodes.
      (match fromBstr b h with
       | .ok s => (.ok (.vstring (u16DecodeLossy s.units)), h)
       | .err e => (.err e, h)
       | .fatal m => (.fatal m, h))
    | _ => (.fatal unmodeledUnionMsg, h)
  | .kunknown, rec, h => vtCheck 13 rec h fun _ _ _ _ p h =>
    match p with
    | .punkVal b =>
      -- `Ptr::with_checked(*n_ptr).unwrap()` (line 739): a null
      -- interface pointer panics rather than erroring.
      (match b with
       | some q => (.ok (.vunknown q), h)
       | none => (.fatal "called Option unwrap on a None value", h))
    | _ => (.fatal unmodeledUnionMsg, h)
  | .kdispatch, rec, h => vtCheck 9 rec h fun _ _ _ _ p h =>
    match p with
    | .pdispVal b =>
      (match b with
       | some q => (.ok (.vdispatch q), h)
       | none => (.fatal "called Option unwrap on a None value", h))
    | _ => (.fatal unmodeledUnionMsg, h)
  | .kboxU8, rec, h => vtCheck 16401 rec h fun _ _ _ _ p h =>
    match p with
    | .pbVal (some v) => (.ok (.vboxU8 v), h)
    | .pbVal none => (.fatal nullDerefMsg, h)
    | _ => (.fatal unmodeledUnionMsg, h)
  | .kboxI16, rec, h => vtCheck 16386 rec h fun _ _ _ _ p h =>
    match p with
    | .piVal (some v) => (.ok (.vboxI16 v), h)
    | .piVal none => (.fatal nullDerefMsg, h)
    | _ => (.fatal unmodeledUnionMsg, h)
  | .kboxI32, rec, h => vtCheck 16387 rec h fun _ _ _ _ p h =>
    match p with
    | .plVal (some v) => (.ok (.vboxI32 v), h)
    | .plVal none => (.fatal nullDerefMsg, h)
    | _ => (.fatal unmodeledUnionMsg, h)
  | .kboxI64, rec, h => vtCheck 16404 rec h fun _ _ _ _ p h =>
    match p with
    | .pllVal (some v) => (.ok (.vboxI64 v), h)
    | .pllVal none => (.fatal nullDerefMsg, h)
    | _ => (.fatal unmodeledUnionMsg, h)
  | .kboxF32, rec, h => vtCheck 16388 rec h fun _ _ _ _ p h =>
    match p with
    | .pfltVal (some v) => (.ok (.vboxF32 v), h)
    | .pfltVal none => (.fatal nullDerefMsg, h)
    | _ => (.fatal unmodeledUnionMsg, h)
  | .kboxF64, rec, h => vtCheck 16389 rec h fun _ _ _ _ p h =>
    match p with
    | .pdblVal (some v) => (.ok (.vboxF64 v), h)
    | .pdblVal none => (.fatal nullDerefMsg, h)
    | _ => (.fatal unmodeledUnionMsg, h)
  | .kboxBool, rec, h => vtCheck 16395 rec h fun _ _ _ _ p h =>
    match p with
    | .pboolVal (some v) => (.ok (.vboxBool (boolOfVb v)), h)
    | .pboolVal none => (.fatal nullDerefMsg, h)
    | _ => (.fatal unmodeledUnionMsg, h)
  | .kboxScode, rec, h => vtCheck 16394 rec h fun _ _ _ _ p h =>
    match p with
    | .pscode (some v) => (.ok (.vboxScode v), h)
    | .pscode none => (.fatal nullDerefMsg, h)
    | _ => (.fatal unmodeledUnionMsg, h)
  | .kboxCy, rec, h => vtCheck 16390 rec h fun _ _ _ _ p h =>
    match p with
    | .pcyVal (some v) => (.ok (.vboxCy v), h)
    | .pcyVal none => (.fatal nullDerefMsg, h)
    | _ => (.fatal unmodeledUnionMsg, h)
  | .kboxDate, rec, h => vtCheck 16391 rec h fun _ _ _ _ p h =>
    match p with
    | .pdate (some v) => (.ok (.vboxDate v), h)
    | .pdate none => (.fatal nullDerefMsg, h)
    | _ => (.fatal unmodeledUnionMsg, h)
  | .kboxString, rec, h => vtCheck 16392 rec h fun _ _ _ _ p h =>
    match p with
    | .pbstrVal (some b) =>
      (match fromBstr b h with
       | .ok s => (.ok (.vboxString (u16DecodeLossy s.units)), h)
       | .err e => (.err e, h)
       | .fatal m => (.fatal m, h))
    | .pbstrVal none => (.fatal nullDerefMsg, h)
    | _ => (.fatal unmodeledUnionMsg, h)
  | .kboxUnknown, rec, h => vtCheck 16397 rec h fun _ _ _ _ p h =>
    match p with
    | .ppunkVal (some b) =>
      -- `NonNull::new((**n_ptr).clone())`: a null inner pointer is the
      -- typed error `UnknownPtrNull` (variant.rs lines 879-886).
      (match b with
       | some q => (.ok (.vboxUnknown q), h)
       | none => (.err .UnknownPtrNull, h))
    | .ppunkVal none => (.fatal nullDerefMsg, h)
    | _ => (.fatal unmodeledUnionMsg, h)
  | .kboxDispatch, rec, h => vtCheck 16393 rec h fun _ _ _ _ p h =>
    match p with
    | .ppdispVal (some b) =>
      (match b with
       | some q => (.ok (.vboxDispatch q), h)
       | none => (.err .DispatchPtrNull, h))
    | .ppdispVal none => (.fatal nullDerefMsg, h)
    | _ => (.fatal unmodeledUnionMsg, h)
  | .kvariant k, rec, h =>
    -- macro check on the outer record, then the closure's null check,
    -- then the inherent `Variant::from_variant` (variant.rs lines
    -- 497-515) on the inner pointer: it arms a `VariantDestructor` it
    -- never defuses (so success and the null-pointer error both
    -- clear), reads `pvarVal` without any discriminant check of its
    -- own, and `T::from_variant(pnn).unwrap()` panics on a nested
    -- decode error.
    (match rec with
     | .dec _ => (.fatal unmodeledUnionMsg, h)
     | .n2 vt _ _ _ p =>
       if vt = 12 then
         match p with
         | .pvarVal b =>
           (match b with
            | none => (.err .VariantPtrNull, h)
            | some o1 =>
              match o1 with
              | .dec _ => (.fatal unmodeledUnionMsg, h)
              | .n2 _ _ _ _ p1 =>
                match p1 with
                | .pvarVal none => (.err .VariantPtrNull, bumpClear h)
                | .pvarVal (some inner) =>
                  (match decodeVar k inner h with
                   | (.ok v, h) => (.ok (.vvariant v), bumpClear h)
                   | (.err _, h) =>
                     (.fatal "called Result unwrap on an Err value", h)
                   | (.fatal m, h) => (.fatal m, h))
                | _ => (.fatal unmodeledUnionMsg, h))
         | _ => (.fatal unmodeledUnionMsg, h)
       else (.err (.VarTypeDoesNotMatch 12 vt), bumpClear h))
  | .karr e, rec, h => vtCheck 8192 rec h fun _ _ _ _ p h =>
    match p with
    | .parray pa =>
      (match e with
       | .ki16 => decodeArr i16Codec .i16s pa h
       | .ki32 => decodeArr i32Codec .i32s pa h
       | .kf32 => decodeArr f32Codec .f32s pa h
       | .kf64 => decodeArr f64Codec .f64s pa h
       | .kcy => decodeArr cyCodec .cys pa h
       | .kdate => decodeArr dateCodec .dates pa h
       | .kbstr => decodeArr bstrCodec .bstrs pa h
       | .kscode => decodeArr scodeCodec .scodes pa h
       | .kbool => decodeArr boolCodec .bools pa h
       | .kdec => decodeArr decCodec .decs pa h
       | .ki8 => decodeArr i8Codec .i8s pa h
       | .ku8 => decodeArr u8Codec .u8s pa h
       | .ku16 => decodeArr u16Codec .u16s pa h
       | .ku32 => decodeArr u32Codec .u32s pa h
       | .kint => decodeArr intCodec .ints pa h
       | .kuint => decodeArr uintCodec .uints pa h)
    | _ => (.fatal unmodeledUnionMsg, h)
  | .kbyref, rec, h => vtCheck 16384 rec h fun _ _ _ _ p h =>
    match p with
    | .byref b =>
      (match b with
       | some q => (.ok (.vbyref q), h)
       | none => (.err .CVoidPtrNull, h))
    | _ => (.fatal unmodeledUnionMsg, h)
  | .ki8, rec, h => vtCheck 16 rec h fun _ _ _ _ p h =>
    match p with
    | .cVal v => (.ok (.vi8 v), h)
    | _ => (.fatal unmodeledUnionMsg, h)
  | .ku16, rec, h => vtCheck 18 rec h fun _ _ _ _ p h =>
    match p with
    | .uiVal v => (.ok (.vu16 v), h)
    | _ => (.fatal unmodeledUnionMsg, h)
  | .ku32, rec, h => vtCheck 19 rec h fun _ _ _ _ p h =>
    match p with
    | .ulVal v => (.ok (.vu32 v), h)
    | _ => (.fatal unmodeledUnionMsg, h)
  | .ku64, rec, h => vtCheck 21 rec h fun _ _ _ _ p h =>
    match p with
    | .ullVal v => (.ok (.vu64 v), h)
    | _ => (.fatal unmodeledUnionMsg, h)
  | .kint, rec, h => vtCheck 22 rec h fun _ _ _ _ p h =>
    match p with
    | .intVal v => (.ok (.vint v), h)
    | _ => (.fatal unmodeledUnionMsg, h)
  | .kuint, rec, h => vtCheck 23 rec h fun _ _ _ _ p h =>
    match p with
    | .uintVal v => (.ok (.vuint v), h)
    | _ => (.fatal unmodeledUnionMsg, h)
  | .kboxDecW, rec, h => vtCheck 16398 rec h fun _ _ _ _ p h =>
    match p with
    | .pdecVal (some c) => (.ok (.vboxDecW (buildRustDecimal c)), h)
    | .pdecVal none => (.fatal nullDerefMsg, h)
    | _ => (.fatal unmodeledUnionMsg, h)
  | .kboxDec, rec, h => vtCheck 16398 rec h fun _ _ _ _ p h =>
    match p with
    | .pdecVal (some c) => (.ok (.vboxDec (buildRustDecimal c)), h)
    | .pdecVal none => (.fatal nullDerefMsg, h)
    | _ => (.fatal unmodeledUnionMsg, h)
  | .kdecW, rec, h => vtCheck 14 rec h fun vt w1 w2 w3 p h =>
    -- @read n1: `n1.decVal()` reinterprets the tag struct's bytes as a
    -- DECIMAL; exact when the payload is the zeroed `n3` the library
    -- itself writes for VT_DECIMAL records.
    match p with
    | .zeroed =>
      (.ok (.vdecW (buildRustDecimal
        ⟨vt, w1 % 256, w1 / 256 % 256, w2 % 65536 + w3 % 65536 * 65536, 0⟩)), h)
    | _ => (.fatal unmodeledUnionMsg, h)
  | .kdec, rec, h => vtCheck 14 rec h fun vt w1 w2 w3 p h =>
    match p with
    | .zeroed =>
      (.ok (.vdec (buildRustDecimal
        ⟨vt, w1 % 256, w1 / 256 % 256, w2 % 65536 + w3 % 65536 * 65536, 0⟩)), h)
    | _ => (.fatal unmodeledUnionMsg, h)
  | .kboxI8, rec, h => vtCheck 16400 rec h fun _ _ _ _ p h =>
    match p with
    | .pcVal (some v) => (.ok (.vboxI8 v), h)
    | .pcVal none => (.fatal nullDerefMsg, h)
    | _ => (.fatal unmodeledUnionMsg, h)
  | .kboxU16, rec, h => vtCheck 16402 rec h fun _ _ _ _ p h =>
    match p with
    | .puiVal (some v) => (.ok (.vboxU16 v), h)
    | .puiVal none => (.fatal nullDerefMsg, h)
    | _ => (.fatal unmodeledUnionMsg, h)
  | .kboxU32, rec, h => vtCheck 16403 rec h fun _ _ _ _ p h =>
    match p with
    | .pulVal (some v) => (.ok (.vboxU32 v), h)
    | .pulVal none => (.fatal nullDerefMsg, h)
    | _ => (.fatal unmodeledUnionMsg, h)
  | .kboxU64, rec, h => vtCheck 16405 rec h fun _ _ _ _ p h =>
    match p with
    | .pullVal (some v) => (.ok (.vboxU64 v), h)
    | .pullVal none => (.fatal nullDerefMsg, h)
    | _ => (.fatal unmodeledUnionMsg, h)
  | .kboxInt, rec, h => vtCheck 16406 rec h fun _ _ _ _ p h =>
    match p with
    | .pintVal (some v) => (.ok (.vboxInt v), h)
    | .pintVal none => (.fatal nullDerefMsg, h)
    | _ => (.fatal unmodeledUnionMsg, h)
  | .kboxUInt, rec, h => vtCheck 16407 rec h fun _ _ _ _ p h =>
    match p with
    | .puintVal (some v) => (.ok (.vboxUInt v), h)
    | .puintVal none => (.fatal nullDerefMsg, h)
    | _ => (.fatal unmodeledUnionMsg, h)

/-- The creation-time fields of an array record (everything except the
element storage): element VARTYPE, dimension count, bound pair. -/
def SARec.header (a : SARec) : Nat × Nat × SABound := (a.vt, a.cDims, a.bound)

/-- A codec's `toSlot` only ever appends BSTR buffers (never frees or
rewrites one), so slots that reference buffers stay readable. -/
def BufsMonotone {α : Type} (c : ElemCodec α) : Prop :=
  ∀ (a : α) (h : Host), h.bufs <+: (c.toSlot a h).2.bufs

/-- `ofSlot` inverts `toSlot` on values satisfying `P`, in any later
host whose buffer store extends the one the slot was written against. -/
def LosslessOn {α : Type} (P : α → Prop) (c : ElemCodec α) : Prop :=
  ∀ (a : α) (h : Host) (s : SASlot) (h2 : Host), P a →
    c.toSlot a h = (.ok s, h2) →
    ∀ h3 : Host, h2.bufs <+: h3.bufs → c.ofSlot s h3 = .ok a

/-- A codec with all three structural properties: it leaves the
SAFEARRAY store alone, only appends buffers, and `ofSlot` inverts
`toSlot` on values satisfying `P`. -/
def GoodCodec {α : Type} (P : α → Prop) (c : ElemCodec α) : Prop :=
  CodecPreservesSA c ∧ BufsMonotone c ∧ LosslessOn P c

/-- Well-formedness of a sequence value: machine-representable length
(below the `i32` index bound the write loop casts through) and, for
string/decimal elements, representable payloads. -/
def SAVal.wfP : SAVal → Prop
  | .i16s l => l.length < 2147483648
  | .i32s l => l.length < 2147483648
  | .f32s l => l.length < 2147483648
  | .f64s l => l.length < 2147483648
  | .cys l => l.length < 2147483648
  | .dates l => l.length < 2147483648
  | .bstrs l => (∀ s ∈ l, s.units.length < 4294967296) ∧
      l.length < 2147483648
  | .scodes l => l.length < 2147483648
  | .bools l => l.length < 2147483648
  | .decs l => (∀ d ∈ l, RDecimal.wf d) ∧ l.length < 2147483648
  | .i8s l => l.length < 2147483648
  | .u8s l => l.length < 2147483648
  | .u16s l => l.length < 2147483648
  | .u32s l => l.length < 2147483648
  | .ints l => l.length < 2147483648
  | .uints l => l.length < 2147483648

/-- Well-formedness of a variant value: string lengths below the `u32`
allocation bound, decimals with `u32`/scale fields in range, arrays
well-formed, and — decisively — not one of the two inline `VT_DECIMAL`
kinds, whose payload the encoder's final tag-struct write destroys. -/
def VValue.wfP : VValue → Prop
  | .vstring s => (u16FromStr s).length < 4294967296
  | .vboxString s => (u16FromStr s).length < 4294967296
  | .vboxDecW d => RDecimal.wf d
  | .vboxDec d => RDecimal.wf d
  | .vvariant v => VValue.wfP v
  | .varr a => SAVal.wfP a
  | .vdecW _ => False
  | .vdec _ => False
  | _ => True

/-! DEFS-END -/

/-! ## Theorems -/

/-- Little-endian byte recomposition recovers a 32-bit value. -/
theorem byte_recompose (n : Nat) (h : n < 4294967296) :
    byteOf n 0 + byteOf n 1 * 256 + byteOf n 2 * 65536 +
      byteOf n 3 * 16777216 = n := by
  simp only [byteOf]
  norm_num
  omega

/-- The decimal value transforms are mutually inverse on well-formed
decimals (exercised, not re-derived, by the codec — spec section 4.2). -/
theorem buildRustDecimal_buildCDecimal (d : RDecimal) (hd : d.wf) :
    buildRustDecimal (buildCDecimal d) = d := by
  obtain ⟨hlo, hmid, hhi, hs⟩ := hd
  simp only [buildRustDecimal, buildCDecimal, u32cast]
  have hl := byte_recompose d.lo hlo
  have hm := byte_recompose d.mid hmid
  have hh := byte_recompose d.hi hhi
  cases d with
  | mk lo mid hi neg scale =>
    simp only at hl hm hh hlo hmid hhi hs ⊢
    congr 1
    · simp only [byteOf] at hl ⊢
      omega
    · simp only [byteOf] at hl hm ⊢
      omega
    · simp only [byteOf] at hh ⊢
      omega
    · cases neg <;> simp
    · omega

theorem char_not_surrogate (c : Char) :
    c.toNat < 55296 ∨ (57343 < c.toNat ∧ c.toNat < 1114112) := by
  have h := c.valid
  simp only [UInt32.isValidChar, Nat.isValidChar] at h
  exact h

theorem bmpChar_toNat (c : Char) (_h : c.toNat < 65536) :
    bmpChar c.toNat = c := Char.ofNat_toNat c

theorem suppChar_split (c : Char) (h : 65536 ≤ c.toNat) :
    suppChar (55296 + (c.toNat - 65536) / 1024)
      (56320 + (c.toNat - 65536) % 1024) = c := by
  simp only [suppChar]
  have hv : Nat.isValidChar c.toNat := c.valid
  have hlt : c.toNat < 1114112 := by
    rcases char_not_surrogate c with h1 | h2
    · omega
    · exact h2.2
  have harg : 65536 + (55296 + (c.toNat - 65536) / 1024 - 55296) * 1024 +
      (56320 + (c.toNat - 65536) % 1024 - 56320) = c.toNat := by
    omega
  rw [harg]
  exact Char.ofNat_toNat c

theorem encodeChar_high_bounds (c : Char) (h : 65536 ≤ c.toNat) :
    isHighSurr (55296 + (c.toNat - 65536) / 1024) = true ∧
      isLowSurr (56320 + (c.toNat - 65536) % 1024) = true := by
  have hlt : c.toNat < 1114112 := by
    rcases char_not_surrogate c with h1 | h2
    · omega
    · exact h2.2
  constructor
  · simp only [isHighSurr, Bool.and_eq_true, decide_eq_true_eq]
    omega
  · simp only [isLowSurr, Bool.and_eq_true, decide_eq_true_eq]
    have := Nat.mod_lt (c.toNat - 65536) (y := 1024) (by omega)
    omega

theorem bmp_not_surrogate (c : Char) (h : c.toNat < 65536) :
    isHighSurr c.toNat = false ∧ isLowSurr c.toNat = false := by
  rcases char_not_surrogate c with h1 | h2 <;>
    constructor <;> simp only [isHighSurr, isLowSurr] <;> simp <;> omega

/-- Decoding an encoded string, with an arbitrary encoded tail appended,
peels off the first character: the induction workhorse. -/
theorem u16DecodeLossy_encodeChar (c : Char) (cs : List Char)
    (ih : u16DecodeLossy (u16FromStr cs) = cs) :
    u16DecodeLossy (u16EncodeChar c ++ u16FromStr cs) = c :: cs := by
  by_cases hc : c.toNat < 65536
  · have hns := bmp_not_surrogate c hc
    simp only [u16EncodeChar, if_pos hc, List.cons_append, List.nil_append]
    cases htl : u16FromStr cs with
    | nil =>
      rw [htl] at ih
      simp only [u16DecodeLossy] at ih ⊢
      simp [hns.1, hns.2, bmpChar_toNat c hc, ← ih]
    | cons w ws =>
      rw [htl] at ih
      simp only [u16DecodeLossy, hns.1, hns.2, Bool.false_eq_true,
        if_false, ih, bmpChar_toNat c hc]
  · push_neg at hc
    have hb := encodeChar_high_bounds c hc
    simp only [u16EncodeChar, if_neg (by omega : ¬ c.toNat < 65536),
      List.cons_append, List.nil_append]
    simp only [u16DecodeLossy, hb.1, hb.2, if_true, ih,
      suppChar_split c hc]

/-- The UTF-16 round trip: `to_string_lossy ∘ from_str = id` on Rust
strings (sequences of Unicode scalar values). -/
theorem u16DecodeLossy_u16FromStr (s : List Char) :
    u16DecodeLossy (u16FromStr s) = s := by
  induction s with
  | nil => rfl
  | cons c cs ih => exact u16DecodeLossy_encodeChar c cs ih

/-! ### Write-phase bookkeeping lemmas

The encode loop only mutates element storage (and, for string
elements, the BSTR allocator): the created record's header and the
`SafeArrayDestroy` log survive it untouched. -/

theorem list_set_of_getElem? {α : Type} (l : List α) (n : Nat) (a : α)
    (h : l[n]? = some a) : l.set n a = l := by
  apply List.ext_getElem?
  intro m
  rw [List.getElem?_set]
  split
  · next heq =>
      subst heq
      have : n < l.length := by
        by_contra hn
        rw [List.getElem?_eq_none (by omega)] at h
        cases h
      simp [this, h]
  · rfl

theorem saePut_preserves (psa : Nat) (ix : Int) (slot : SASlot) (h : Host) :
    (safeArrayPutElement psa ix slot h).2.saDestroyLog = h.saDestroyLog ∧
    (safeArrayPutElement psa ix slot h).2.arrays.map SARec.header
      = h.arrays.map SARec.header := by
  unfold safeArrayPutElement
  cases harr : h.arrays[psa]? with
  | none => exact ⟨rfl, rfl⟩
  | some a =>
    simp only
    split
    · refine ⟨rfl, ?_⟩
      simp only [List.map_set]
      have hh : ∀ e, SARec.header { a with elems := e } = SARec.header a :=
        fun _ => rfl
      rw [hh]
      apply list_set_of_getElem?
      rw [List.getElem?_map, harr]
      rfl
    · exact ⟨rfl, rfl⟩

theorem saeInto_preserves {α : Type} (c : ElemCodec α)
    (hpres : CodecPreservesSA c) (x : α) (psa : Nat) (ix : Int) (h : Host) :
    (saeIntoSafearray c x psa ix h).2.saDestroyLog = h.saDestroyLog ∧
    (saeIntoSafearray c x psa ix h).2.arrays.map SARec.header
      = h.arrays.map SARec.header := by
  unfold saeIntoSafearray
  obtain ⟨ha, hl⟩ := hpres x h
  rcases hts : c.toSlot x h with ⟨r, h1⟩
  rw [hts] at ha hl
  cases r with
  | ok slot =>
    simp only
    rcases hput : safeArrayPutElement psa ix slot h1 with ⟨hr, h2⟩
    have hp := saePut_preserves psa ix slot h1
    rw [hput] at hp
    split <;> simp only <;>
      exact ⟨by rw [hp.1, hl], by rw [hp.2, ha]⟩
  | err e => exact ⟨hl, congrArg (List.map SARec.header) ha⟩
  | fatal m => exact ⟨hl, congrArg (List.map SARec.header) ha⟩

theorem putLoop_preserves {α : Type} (c : ElemCodec α)
    (hpres : CodecPreservesSA c) (psa : Nat) :
    ∀ (items : List α) (ix : Nat) (h : Host),
      (putLoop c psa items ix h).2.saDestroyLog = h.saDestroyLog ∧
      (putLoop c psa items ix h).2.arrays.map SARec.header
        = h.arrays.map SARec.header := by
  intro items
  induction items with
  | nil => exact fun ix h => ⟨rfl, rfl⟩
  | cons x rest ih =>
    intro ix h
    simp only [putLoop]
    rcases hs : saeIntoSafearray c x psa (i32ofNat ix) h with ⟨r, h1⟩
    have hp := saeInto_preserves c hpres x psa (i32ofNat ix) h
    rw [hs] at hp
    cases r with
    | ok u =>
      cases u
      have hr := ih (ix + 1) h1
      exact ⟨hr.1.trans hp.1, hr.2.trans hp.2⟩
    | err e => exact hp
    | fatal m => exact hp

theorem header_getD_eq {l l' : List SARec}
    (hm : l'.map SARec.header = l.map SARec.header) (n : Nat)
    (hn : n < l.length) (d : SARec) :
    (l'.getD n d).header = (l.getD n d).header := by
  have hlen : l'.length = l.length := by
    have := congrArg List.length hm
    simpa using this
  have h1 : (l'.map SARec.header)[n]? = (l.map SARec.header)[n]? := by
    rw [hm]
  rw [List.getElem?_map, List.getElem?_map] at h1
  rw [List.getD_eq_getElem?_getD, List.getD_eq_getElem?_getD]
  rw [List.getElem?_eq_getElem (by omega), List.getElem?_eq_getElem hn] at h1 ⊢
  simpa using h1

/-- The record `into_safearray` creates (at the next free handle) keeps
its creation-time header — one dimension, lower bound zero, `len() as
u32` elements, the element kind's tag — across the whole write loop and
any guard-triggered destroy. -/
theorem intoSafearray_created_header {α : Type} (c : ElemCodec α)
    (hpres : CodecPreservesSA c) (items : List α) (h : Host) :
    ((intoSafearray c items h).2.arrays.getD h.arrays.length
        ⟨0, 0, ⟨0, 0⟩, []⟩).header
      = (u16cast c.sftype, 1, (⟨u32cast items.length, 0⟩ : SABound)) := by
  unfold intoSafearray safeArrayCreate
  simp only
  rcases hput : putLoop c h.arrays.length items 0
      { h with arrays := h.arrays ++
          [⟨u16cast c.sftype, 1, ⟨u32cast items.length, 0⟩,
            List.replicate (u32cast items.length) none⟩] } with ⟨r, h2⟩
  have hp := putLoop_preserves c hpres h.arrays.length items 0
      { h with arrays := h.arrays ++
          [⟨u16cast c.sftype, 1, ⟨u32cast items.length, 0⟩,
            List.replicate (u32cast items.length) none⟩] }
  rw [hput] at hp
  have harr : (h.arrays ++
      [(⟨u16cast c.sftype, 1, ⟨u32cast items.length, 0⟩,
        List.replicate (u32cast items.length) none⟩ : SARec)]).getD
      h.arrays.length ⟨0, 0, ⟨0, 0⟩, []⟩
      = ⟨u16cast c.sftype, 1, ⟨u32cast items.length, 0⟩,
          List.replicate (u32cast items.length) none⟩ := by
    rw [List.getD_append_right _ _ _ _ (le_refl _)]
    simp
  have hlen : h.arrays.length < (h.arrays ++
      [(⟨u16cast c.sftype, 1, ⟨u32cast items.length, 0⟩,
        List.replicate (u32cast items.length) none⟩ : SARec)]).length := by
    simp
  have hh := header_getD_eq hp.2 h.arrays.length hlen ⟨0, 0, ⟨0, 0⟩, []⟩
  rw [harr] at hh
  cases r with
  | ok u => cases u; simpa [SARec.header] using hh
  | err e =>
    rcases e with ⟨ix, el⟩
    simpa [safeArrayDestroy, SARec.header] using hh
  | fatal m => simpa [SARec.header] using hh

/-- `toSlot` of the numeric/identity codecs never touches the host. -/
theorem i16Codec_preserves : CodecPreservesSA i16Codec :=
  fun _ _ => ⟨rfl, rfl⟩

theorem i8Codec_preserves : CodecPreservesSA i8Codec :=
  fun _ _ => ⟨rfl, rfl⟩

/-- The BSTR element codec allocates through the string allocator only:
the SAFEARRAY store and release log are untouched. -/
theorem bstrCodec_preserves : CodecPreservesSA bstrCodec := by
  intro a h
  cases hm : h.bstrFailMask with
  | nil => simp [bstrCodec, allocateBstr, sysAllocStringLen, hm]
  | cons b rest =>
    cases b <;> simp [bstrCodec, allocateBstr, sysAllocStringLen, hm]

/-- Closed form of `allocate_bstr`: one allocator call with the
truncated length, then either the typed allocation error (carrying the
untruncated length) or the fresh buffer holding the copied units. -/
theorem allocateBstr_spec (s : U16Str) (h : Host) :
    allocateBstr s h =
      if h.bstrFailMask.headD false then
        (.err (.AllocateFailed s.units.length),
         { h with bstrFailMask := h.bstrFailMask.tail,
                  allocCalls := h.allocCalls ++ [u32cast s.units.length] })
      else
        (.ok h.bufs.length,
         { h with bstrFailMask := h.bstrFailMask.tail,
                  allocCalls := h.allocCalls ++ [u32cast s.units.length],
                  bufs := h.bufs ++ [s.units.take (u32cast s.units.length)] }) := by
  cases hm : h.bstrFailMask with
  | nil => simp [allocateBstr, sysAllocStringLen, hm]
  | cons b rest =>
    cases b <;> simp [allocateBstr, sysAllocStringLen, hm]

/-- C1.  The round-trip law fails on the code for the inline decimal
kinds: the `variant_impl!` macro writes `decVal` into the `n1` union
and then writes the 16-byte tag struct over the same union
(variant.rs lines 586-595), zeroing the payload, so decoding the
record produced by encoding `DecWrapper(Decimal::new(1, 0))` yields
the zero decimal, not the original value. -/
theorem c1_decimal_roundtrip_lost :
    (encodeVar (.vdecW ⟨1, 0, 0, false, 0⟩) host0).1 = .ok (mkVar 14 .zeroed) ∧
    (decodeVar .kdecW (mkVar 14 .zeroed) host0).1
      = .ok (.vdecW ⟨0, 0, 0, false, 0⟩) ∧
    (⟨1, 0, 0, false, 0⟩ : RDecimal) ≠ (⟨0, 0, 0, false, 0⟩ : RDecimal) :=
  ⟨rfl, rfl, by decide⟩

/-- C2 counterexample.  `VtEmpty` and `VtNull` decode a record tagged
`VT_I4` (= 3) successfully instead of returning the claimed
discriminant-mismatch error: their `from_variant` never inspects the
discriminant (variant.rs lines 1147-1150 and 1171-1174). -/
theorem c2_counterexample_sentinels_ignore_discriminant :
    (decodeVar .kempty (.n2 3 0 0 0 (.lVal 1337)) host0).1 = .ok .vempty ∧
    (decodeVar .knull (.n2 3 0 0 0 (.lVal 1337)) host0).1 = .ok .vnull :=
  ⟨rfl, rfl⟩

/-- C2 (amended).  For every kind `B` other than the `VtEmpty`/`VtNull`
sentinels, decoding a record whose discriminant differs from `B`'s tag
returns `VarTypeDoesNotMatch { expected: B's tag, found: the stored
discriminant }`, with the armed destructor clearing the record — and
the outcome is the same for every payload (the payload is never
read). -/
theorem c2_mismatch_error_carries_expected_found (k : VKind)
    (hk1 : k ≠ .kempty) (hk2 : k ≠ .knull) (vt w1 w2 w3 : Nat) (p : N3)
    (h : Host) (hvt : vt ≠ vkindTag k) :
    decodeVar k (.n2 vt w1 w2 w3 p) h
      = (.err (.VarTypeDoesNotMatch (vkindTag k) vt), bumpClear h) := by
  cases k <;>
    first
      | exact absurd rfl hk1
      | exact absurd rfl hk2
      | (simp only [decodeVar, vtCheck, vkindTag] at hvt ⊢
         rw [if_neg hvt])

/-- C2 witness: requesting `f32` (tag 4) from a record tagged `f64`
(tag 5) — the spec's scenario 6. -/
theorem c2_mismatch_witness :
    decodeVar .kf32 (.n2 5 0 0 0 (.dblVal 0)) host0
      = (.err (.VarTypeDoesNotMatch 4 5), bumpClear host0) :=
  c2_mismatch_error_carries_expected_found .kf32 (by decide) (by decide)
    5 0 0 0 (.dblVal 0) host0 (by decide)

/-- C3.  Decoding an array record whose dimension count is 0 does not
produce the dimensions-invalid error the claim (and the error type's
own documentation) promises: `from_safearray` panics on its
`assert!(sa_dims > 0)` (array.rs line 540).  A dimension count of 2
with a matching element kind does produce `SafeArrayDimsInvalid`. -/
theorem c3_zero_dims_panics :
    (fromSafearray i16Codec 0
        { host0 with arrays := [⟨2, 0, ⟨0, 0⟩, []⟩] }).1
      = .fatal "assertion failed: sa_dims > 0" ∧
    (fromSafearray i16Codec 0
        { host0 with arrays := [⟨2, 2, ⟨1, 0⟩, [none]⟩] }).1
      = .err (.fromE (.SafeArrayDimsInvalid 2)) :=
  ⟨rfl, rfl⟩

/-- C4.  If the write of element `i` fails during `into_safearray`,
the operation returns the element-conversion error tagged with exactly
that index, and the freshly created array record is destroyed exactly
once by the `SafeArrayDestructor` scope guard (one new entry in the
destroy log, total count one). -/
theorem c4_element_failure_released_once {α : Type} (c : ElemCodec α)
    (hpres : CodecPreservesSA c) (items : List α) (h : Host) (i : Nat)
    (e : ElementError)
    (hwf : ∀ j ∈ h.saDestroyLog, j < h.arrays.length)
    (hfail : (putLoop c h.arrays.length items 0
        (safeArrayCreate (u16cast c.sftype) 1 ⟨u32cast items.length, 0⟩ h).2).1
      = .err (i, e)) :
    (intoSafearray c items h).1
      = .err (.intoE (.ElementConversionFailed i e)) ∧
    (intoSafearray c items h).2.saDestroyLog
      = h.saDestroyLog ++ [h.arrays.length] ∧
    List.count h.arrays.length ((intoSafearray c items h).2.saDestroyLog)
      = 1 := by
  rcases hput : putLoop c h.arrays.length items 0
      (safeArrayCreate (u16cast c.sftype) 1 ⟨u32cast items.length, 0⟩ h).2
    with ⟨r, h2⟩
  rw [hput] at hfail
  have hr : r = .err (i, e) := hfail
  subst hr
  have hplp := putLoop_preserves c hpres h.arrays.length items 0
      (safeArrayCreate (u16cast c.sftype) 1 ⟨u32cast items.length, 0⟩ h).2
  rw [hput] at hplp
  have hlog : h2.saDestroyLog = h.saDestroyLog := hplp.1
  have hbody : intoSafearray c items h
      = (.err (.intoE (.ElementConversionFailed i e)),
         safeArrayDestroy h.arrays.length h2) := by
    unfold intoSafearray
    simp only [safeArrayCreate] at hput ⊢
    rw [hput]
  refine ⟨by rw [hbody], ?_, ?_⟩
  · rw [hbody]
    show h2.saDestroyLog ++ [h.arrays.length]
      = h.saDestroyLog ++ [h.arrays.length]
    rw [hlog]
  · rw [hbody]
    show List.count h.arrays.length (h2.saDestroyLog ++ [h.arrays.length]) = 1
    rw [hlog, List.count_append]
    have hz : List.count h.arrays.length h.saDestroyLog = 0 :=
      List.count_eq_zero.2 (fun hmem => absurd (hwf _ hmem) (lt_irrefl _))
    rw [hz]
    simp

/-- C4 witness: a one-element string sequence whose BSTR allocation
fails at index 0. -/
theorem c4_witness :
    (intoSafearray bstrCodec [⟨[65]⟩]
        { host0 with bstrFailMask := [true] }).1
      = .err (.intoE (.ElementConversionFailed 0
          (.intoE (.BStringFailed (.AllocateFailed 1))))) ∧
    (intoSafearray bstrCodec [⟨[65]⟩]
        { host0 with bstrFailMask := [true] }).2.saDestroyLog = [0] ∧
    List.count 0 ((intoSafearray bstrCodec [⟨[65]⟩]
        { host0 with bstrFailMask := [true] }).2.saDestroyLog) = 1 :=
  c4_element_failure_released_once bstrCodec bstrCodec_preserves
    [⟨[65]⟩] { host0 with bstrFailMask := [true] } 0
    (.intoE (.BStringFailed (.AllocateFailed 1)))
    (fun j hj => absurd hj (List.not_mem_nil j)) rfl

/-- C5.  Decoding a reference kind whose payload pointer is null does
not surface the recoverable typed error the contract requires: a null
BSTR hits `from_bstr`'s assert (a panic, bstr.rs line 113) and a null
`IUnknown` hits `Ptr::with_checked(..).unwrap()` (a panic, variant.rs
line 739).  Only the nested-value kind returns the typed
`VariantPtrNull`. -/
theorem c5_null_reference_payload_panics :
    (decodeVar .kstring (.n2 8 0 0 0 (.bstrVal none)) host0).1
      = .fatal "assertion failed: bstr is not null" ∧
    (decodeVar .kunknown (.n2 13 0 0 0 (.punkVal none)) host0).1
      = .fatal "called Option unwrap on a None value" ∧
    (decodeVar (.kvariant .ki32) (.n2 12 0 0 0 (.pvarVal none)) host0).1
      = .err .VariantPtrNull :=
  ⟨rfl, rfl, rfl⟩

/-- C6 (amended).  Encoding a sequence of length `N` with element kind
`K` allocates an array record with dimension count 1, lower bound 0,
`N mod 2^32` elements (= `N` whenever `N < 2^32`, since the length is
passed through `len() as u32`), and element discriminant `K`'s tag. -/
theorem c6_array_record_shape {α : Type} (c : ElemCodec α)
    (hpres : CodecPreservesSA c) (items : List α) (h : Host) :
    ((intoSafearray c items h).2.arrays.getD h.arrays.length
        ⟨0, 0, ⟨0, 0⟩, []⟩).cDims = 1 ∧
    ((intoSafearray c items h).2.arrays.getD h.arrays.length
        ⟨0, 0, ⟨0, 0⟩, []⟩).bound.lLbound = 0 ∧
    ((intoSafearray c items h).2.arrays.getD h.arrays.length
        ⟨0, 0, ⟨0, 0⟩, []⟩).vt = u16cast c.sftype ∧
    ((intoSafearray c items h).2.arrays.getD h.arrays.length
        ⟨0, 0, ⟨0, 0⟩, []⟩).bound.cElements = u32cast items.length ∧
    (items.length < 4294967296 →
      ((intoSafearray c items h).2.arrays.getD h.arrays.length
        ⟨0, 0, ⟨0, 0⟩, []⟩).bound.cElements = items.length) := by
  have hh := intoSafearray_created_header c hpres items h
  simp only [SARec.header, Prod.mk.injEq] at hh
  obtain ⟨h1, h2, h3⟩ := hh
  refine ⟨h2, by rw [h3], h1, by rw [h3], fun hlt => ?_⟩
  rw [h3]
  exact Nat.mod_eq_of_lt hlt

/-- C6 counterexample.  A sequence of `2^32` elements is encoded into
an array record announcing zero elements: `self.len() as u32`
truncates (array.rs line 510). -/
theorem c6_counterexample_length_truncated :
    ((intoSafearray i16Codec (List.replicate 4294967296 (0 : Int))
        host0).2.arrays.getD 0 ⟨0, 0, ⟨0, 0⟩, []⟩).bound.cElements = 0 ∧
    (List.replicate 4294967296 (0 : Int)).length = 4294967296 ∧
    (4294967296 : Nat) ≠ 0 := by
  have hh := intoSafearray_created_header i16Codec i16Codec_preserves
      (List.replicate 4294967296 (0 : Int)) host0
  simp only [SARec.header, Prod.mk.injEq, List.length_replicate] at hh
  refine ⟨?_, List.length_replicate _ _, by norm_num⟩
  have h3 := hh.2.2
  have hu : u32cast 4294967296 = 0 := by norm_num [u32cast]
  rw [hu] at h3
  have h0 : (host0.arrays.length : Nat) = 0 := rfl
  rw [h0] at h3
  rw [h3]

/-- C6 witness: the spec's scenario 2 — five 8-bit signed integers give
a record with element kind `VT_I1` (16), one dimension, bounds
`[0, 4]` (lower bound 0, five elements). -/
theorem c6_witness :
    ((intoSafearray i8Codec [0, 1, 2, 3, 4] host0).2.arrays.getD 0
        ⟨0, 0, ⟨0, 0⟩, []⟩).cDims = 1 ∧
    ((intoSafearray i8Codec [0, 1, 2, 3, 4] host0).2.arrays.getD 0
        ⟨0, 0, ⟨0, 0⟩, []⟩).bound.lLbound = 0 ∧
    ((intoSafearray i8Codec [0, 1, 2, 3, 4] host0).2.arrays.getD 0
        ⟨0, 0, ⟨0, 0⟩, []⟩).vt = 16 ∧
    ((intoSafearray i8Codec [0, 1, 2, 3, 4] host0).2.arrays.getD 0
        ⟨0, 0, ⟨0, 0⟩, []⟩).bound.cElements = 5 :=
  have hc := c6_array_record_shape i8Codec i8Codec_preserves
    [0, 1, 2, 3, 4] host0
  ⟨hc.1, hc.2.1, hc.2.2.1, hc.2.2.2.2 (by norm_num)⟩

/-- C7 (amended).  Every wide-string allocation performs exactly one
host-allocator call, with the requested code-unit length reduced
modulo 2^32 (`sz as u32`) — exact whenever the length is below 2^32;
the operation never panics; a null return from the allocator becomes
`AllocateFailed` carrying the full requested length; and a successful
allocation stores the copied code units (embedded zeros included). -/
theorem c7_allocator_exact_length_and_error (s : U16Str) (h : Host) :
    (allocateBstr s h).2.allocCalls
      = h.allocCalls ++ [u32cast s.units.length] ∧
    (s.units.length < 4294967296 →
      (allocateBstr s h).2.allocCalls = h.allocCalls ++ [s.units.length]) ∧
    (∀ m, (allocateBstr s h).1 ≠ .fatal m) ∧
    (h.bstrFailMask.headD false = true →
      (allocateBstr s h).1 = .err (.AllocateFailed s.units.length)) ∧
    (∀ p, (allocateBstr s h).1 = .ok p →
      (allocateBstr s h).2.bufs.getD p []
        = s.units.take (u32cast s.units.length)) := by
  have hcast : s.units.length < 4294967296 →
      u32cast s.units.length = s.units.length := fun hlt => Nat.mod_eq_of_lt hlt
  rw [allocateBstr_spec]
  by_cases hf : h.bstrFailMask.headD false = true
  · rw [if_pos hf]
    refine ⟨rfl, fun hlt => ?_, fun m hm => (by cases hm), fun _ => rfl,
      fun q hq => (by cases hq)⟩
    show h.allocCalls ++ [u32cast s.units.length] = _
    rw [hcast hlt]
  · rw [if_neg hf]
    refine ⟨rfl, fun hlt => ?_, fun m hm => (by cases hm),
      fun hc => absurd hc hf, fun q hq => ?_⟩
    · show h.allocCalls ++ [u32cast s.units.length] = _
      rw [hcast hlt]
    · have hqq : q = h.bufs.length := (RRes.ok.inj hq).symm
      subst hqq
      show (h.bufs ++ [s.units.take (u32cast s.units.length)]).getD
        h.bufs.length [] = _
      rw [List.getD_append_right _ _ _ _ (le_refl _)]
      simp

/-- C7 counterexample.  A `2^32`-unit request reaches the allocator as
a request for 0 units. -/
theorem c7_counterexample_length_truncated :
    (allocateBstr ⟨List.replicate 4294967296 0⟩ host0).2.allocCalls = [0] ∧
    (List.replicate (4294967296 : Nat) (0 : Nat)).length = 4294967296 ∧
    (4294967296 : Nat) ≠ 0 := by
  refine ⟨?_, List.length_replicate _ _, by norm_num⟩
  rw [allocateBstr_spec, if_neg (by decide)]
  show ([] : List Nat) ++
    [u32cast (List.replicate (4294967296 : Nat) (0 : Nat)).length] = [0]
  rw [List.length_replicate]
  norm_num [u32cast]

/-- C7 witness: the 3-unit string `[116, 0, 115]` (with an embedded
zero) against a failing allocator — one call with length 3, and the
typed error carries 3. -/
theorem c7_witness :
    (allocateBstr ⟨[116, 0, 115]⟩
        { host0 with bstrFailMask := [true] }).2.allocCalls = [3] ∧
    (allocateBstr ⟨[116, 0, 115]⟩
        { host0 with bstrFailMask := [true] }).1
      = .err (.AllocateFailed 3) := by
  have hthm := c7_allocator_exact_length_and_error ⟨[116, 0, 115]⟩
    { host0 with bstrFailMask := [true] }
  exact ⟨hthm.2.1 (by norm_num), hthm.2.2.2.1 rfl⟩

/-- C8.  The release policy runs exactly once per owning handle:
dropping a live handle invokes its policy once on the held address and
empties the slot, so a second drop is silent; `cast` moves the address
into the new handle and empties the old one without running the old
policy, so the old handle then drops silently and only the new
handle's policy ever releases the address. -/
theorem c8_release_policy_exactly_once (a : Nat) (p : MPtr)
    (hp : p.inner = some a) (dOld dNew : Nat → List (Nat × Nat)) :
    (MPtr.dropWith dOld p).2 = dOld a ∧
    (MPtr.dropWith dOld (MPtr.dropWith dOld p).1).2 = [] ∧
    MPtr.cast p = .ok (⟨some a⟩, ⟨none⟩) ∧
    (MPtr.dropWith dOld (⟨none⟩ : MPtr)).2 = [] ∧
    (MPtr.dropWith dNew (⟨some a⟩ : MPtr)).2 = dNew a := by
  cases p with
  | mk inner =>
    cases hp
    exact ⟨rfl, rfl, rfl, rfl, rfl⟩

/-- C8 witness: address 7 under distinguishable old/new policies. -/
theorem c8_witness :
    (MPtr.dropWith (fun x => [(0, x)]) ⟨some 7⟩).2 = [(0, 7)] ∧
    (MPtr.dropWith (fun x => [(0, x)])
        (MPtr.dropWith (fun x => [(0, x)]) ⟨some 7⟩).1).2 = [] ∧
    MPtr.cast ⟨some 7⟩ = .ok (⟨some 7⟩, ⟨none⟩) ∧
    (MPtr.dropWith (fun x => [(0, x)]) (⟨none⟩ : MPtr)).2 = [] ∧
    (MPtr.dropWith (fun x => [(1, x)]) (⟨some 7⟩ : MPtr)).2 = [(1, 7)] :=
  c8_release_policy_exactly_once 7 ⟨some 7⟩ rfl
    (fun x => [(0, x)]) (fun x => [(1, x)])

/-- C9.  Every successful encode produces a record whose union holds
the tag struct with the kind's tag in the discriminant and all three
reserved words zero. -/
theorem c9_discriminant_and_reserved_zero (v : VValue) (h h2 : Host)
    (rec : VarRec) (henc : encodeVar v h = (.ok rec, h2)) :
    ∃ p : N3, rec = .n2 (vkindTag v.vkind) 0 0 0 p := by
  cases v <;>
    simp only [encodeVar] at henc <;>
    (try split at henc) <;>
    simp only [Prod.mk.injEq] at henc <;>
    first
      | (obtain ⟨h1, -⟩ := henc
         exact ⟨_, (RRes.ok.inj h1).symm⟩)
      | (obtain ⟨h1, -⟩ := henc
         exact RRes.noConfusion h1)

/-- C9 witness: the spec's scenario 1 — encoding the 32-bit signed
integer 1337 yields discriminant `VT_I4` (3) and zeroed reserved
words. -/
theorem c9_witness :
    ∃ p : N3, mkVar 3 (.lVal 1337)
      = .n2 (vkindTag (VValue.vi32 1337).vkind) 0 0 0 p :=
  c9_discriminant_and_reserved_zero (.vi32 1337) host0 host0
    (mkVar 3 (.lVal 1337)) rfl

/-- C10.  Boolean codec: encoding `true` writes the native payload -1
(`VARIANT_TRUE`) and `false` writes 0; decoding maps a payload to
`true` exactly when it is negative (so 0 and every positive value,
e.g. 5, decode to `false`). -/
theorem c10_variant_bool_codec :
    (encodeVar (.vbool true) host0).1 = .ok (.n2 11 0 0 0 (.boolVal (-1))) ∧
    (encodeVar (.vbool false) host0).1 = .ok (.n2 11 0 0 0 (.boolVal 0)) ∧
    (∀ v : Int, boolOfVb v = decide (v < 0)) ∧
    (decodeVar .kbool (.n2 11 0 0 0 (.boolVal 5)) host0).1
      = .ok (.vbool false) ∧
    (decodeVar .kbool (.n2 11 0 0 0 (.boolVal (-1))) host0).1
      = .ok (.vbool true) :=
  ⟨rfl, rfl, fun _ => rfl, rfl, rfl⟩

theorem dispEBadindex_ne : dispEBadindex ≠ 0 := by decide

theorem eInvalidarg_ne : eInvalidarg ≠ 0 := by decide

/-- Inversion of a successful write step: the slot conversion
succeeded, the put landed in bounds, and the element storage at the
target position now holds the converted slot. -/
theorem saeInto_ok_inv {α : Type} (c : ElemCodec α) (x : α) (psa : Nat)
    (ix : Int) (h h1 : Host)
    (hok : saeIntoSafearray c x psa ix h = (.ok (), h1)) :
    ∃ (s : SASlot) (hA : Host) (a : SARec),
      c.toSlot x h = (.ok s, hA) ∧
      hA.arrays[psa]? = some a ∧
      (a.bound.lLbound ≤ ix ∧ ix < a.bound.lLbound + a.bound.cElements) ∧
      h1 = { hA with arrays := hA.arrays.set psa { a with elems := a.elems.set (ix - a.bound.lLbound).toNat (some s) } } := by
  unfold saeIntoSafearray at hok
  rcases hts : c.toSlot x h with ⟨r, hA⟩
  rw [hts] at hok
  cases r with
  | ok s =>
    simp only at hok
    unfold safeArrayPutElement at hok
    cases harr : hA.arrays[psa]? with
    | none =>
      rw [harr] at hok
      simp [eInvalidarg] at hok
    | some a =>
      rw [harr] at hok
      simp only at hok
      by_cases hin : a.bound.lLbound ≤ ix ∧ ix < a.bound.lLbound + a.bound.cElements
      · rw [if_pos hin] at hok
        simp only [if_true, Prod.mk.injEq] at hok
        exact ⟨s, hA, a, rfl, harr, hin, hok.2.symm⟩
      · rw [if_neg hin] at hok
        simp [dispEBadindex] at hok
  | err e => simp at hok
  | fatal m => simp at hok

theorem i32ofNat_small (n : Nat) (hn : n < 2147483648) : i32ofNat n = n := by
  unfold i32ofNat
  have h1 : n % 4294967296 = n := Nat.mod_eq_of_lt (by omega)
  rw [h1, if_pos (by exact_mod_cast hn)]

theorem list_getD_of_getElem? {α : Type} (l : List α) (n : Nat) (a d : α)
    (h : l[n]? = some a) : l.getD n d = a := by
  rw [List.getD_eq_getElem?_getD, h]
  rfl

/-- Write-loop invariant: a completed `putLoop` run over a record with
lower bound 0 extends only the buffer store, preserves the record
header and storage length, leaves positions below the start index
untouched, and leaves at position `ix + j` a slot that reads back the
`j`-th item in any host extending the final buffers. -/
theorem putLoop_ok_elems {α : Type} (c : ElemCodec α) (P : α → Prop)
    (hPres : CodecPreservesSA c) (hM : BufsMonotone c) (hL : LosslessOn P c)
    (psa : Nat) :
    ∀ (rest : List α) (ix : Nat) (h0 h2 : Host) (a0 : SARec),
      putLoop c psa rest ix h0 = (.ok (), h2) →
      (∀ x ∈ rest, P x) →
      ix + rest.length ≤ 2147483648 →
      h0.arrays[psa]? = some a0 →
      a0.bound.lLbound = 0 →
      a0.bound.cElements ≤ a0.elems.length →
      h0.bufs <+: h2.bufs ∧
      ∃ a2 : SARec,
        h2.arrays[psa]? = some a2 ∧
        a2.bound = a0.bound ∧ a2.vt = a0.vt ∧ a2.cDims = a0.cDims ∧
        a2.elems.length = a0.elems.length ∧
        (∀ j, j < ix → a2.elems.getD j none = a0.elems.getD j none) ∧
        (∀ j x, rest[j]? = some x →
          ∃ s, a2.elems.getD (ix + j) none = some s ∧
            ∀ h3 : Host, h2.bufs <+: h3.bufs → c.ofSlot s h3 = .ok x) := by
  intro rest
  induction rest with
  | nil =>
    intro ix h0 h2 a0 hput _ _ harr _ _
    unfold putLoop at hput
    injection hput with h1 h2eq
    subst h2eq
    refine ⟨List.prefix_refl _, a0, harr, rfl, rfl, rfl, rfl,
      fun j _ => rfl, fun j x hj => ?_⟩
    simp at hj
  | cons x rest IH =>
    intro ix h0 h2 a0 hput hwf hix harr hlb hlen
    unfold putLoop at hput
    rcases hstep : saeIntoSafearray c x psa (i32ofNat ix) h0 with ⟨r, h1⟩
    rw [hstep] at hput
    cases r with
    | err e => simp at hput
    | fatal m => simp at hput
    | ok u =>
      cases u
      simp only at hput
      obtain ⟨s, hA, a, hts, harrA, hin, h1eq⟩ := saeInto_ok_inv c x psa _ h0 h1 hstep
      have hAarr : hA.arrays = h0.arrays := by
        have := (hPres x h0).1
        rw [hts] at this
        exact this
      rw [hAarr, harr] at harrA
      injection harrA with haa
      subst haa
      have hixlt : ix < 2147483648 := by
        simp only [List.length_cons] at hix
        omega
      have hi32 : i32ofNat ix = (ix : Int) := i32ofNat_small ix hixlt
      have hixpos : (i32ofNat ix - a0.bound.lLbound).toNat = ix := by
        rw [hi32, hlb]
        simp
      rw [hixpos] at h1eq
      have hpsalt : psa < hA.arrays.length := by
        rw [hAarr]
        exact (List.getElem?_eq_some_iff.mp harr).1
      have harr1 : h1.arrays[psa]? =
          some { a0 with elems := a0.elems.set ix (some s) } := by
        rw [h1eq]
        exact List.getElem?_set_self hpsalt
      have hixelem : ix < a0.elems.length := by
        rcases hin with ⟨_, hr⟩
        rw [hi32, hlb] at hr
        have : (ix : Int) < (a0.bound.cElements : Int) := by simpa using hr
        have h2 : ix < a0.bound.cElements := by exact_mod_cast this
        omega
      obtain ⟨hpre, a2, harr2, hb2, hv2, hd2, hl2, huntouched, hitems⟩ :=
        IH (ix + 1) h1 h2 { a0 with elems := a0.elems.set ix (some s) } hput
          (fun y hy => hwf y (List.mem_cons_of_mem x hy))
          (by simp only [List.length_cons] at hix; omega)
          harr1 hlb (by simpa using hlen)
      have hbufs1 : h1.bufs = hA.bufs := by rw [h1eq]
      have hbufs0A : h0.bufs <+: hA.bufs := by
        have := hM x h0
        rw [hts] at this
        exact this
      refine ⟨(hbufs0A.trans (hbufs1 ▸ hpre)), a2, harr2, hb2, hv2, hd2,
        (by simpa using hl2), ?_, ?_⟩
      · intro j hj
        rw [huntouched j (by omega)]
        simp only [List.getD_eq_getElem?_getD]
        rw [List.getElem?_set_ne (by omega)]
      · intro j y hjy
        cases j with
        | zero =>
          simp only [List.getElem?_cons_zero, Option.some.injEq] at hjy
          subst hjy
          refine ⟨s, ?_, ?_⟩
          · rw [Nat.add_zero, huntouched ix (by omega)]
            simp only [List.getD_eq_getElem?_getD]
            rw [List.getElem?_set_self hixelem]
            rfl
          · intro h3 hpre3
            exact hL x h0 s hA (hwf x (List.mem_cons_self x rest)) hts h3
              ((hbufs1 ▸ hpre).trans hpre3 |>.trans (List.prefix_refl _) |>.trans (List.prefix_refl _))
        | succ j =>
          obtain ⟨s', hs', hread⟩ := hitems j y (by simpa using hjy)
          exact ⟨s', by rw [show ix + (j + 1) = ix + 1 + j by omega]; exact hs', hread⟩

/-- Read-loop correctness: over a record with lower bound 0 whose
slots at positions `ix.toNat + j` convert back to the items of `l`,
`getLoop` returns the accumulator extended with `l` and leaves the
host untouched. -/
theorem getLoop_ok {α : Type} (c : ElemCodec α) (psa : Nat) (a : SARec)
    (hlb : a.bound.lLbound = 0) :
    ∀ (l : List α) (ix : Int) (acc : List α) (h : Host),
      h.arrays[psa]? = some a →
      0 ≤ ix →
      ix.toNat + l.length ≤ a.bound.cElements →
      (∀ j x, l[j]? = some x →
        ∃ s, a.elems.getD (ix.toNat + j) none = some s ∧
          c.ofSlot s h = .ok x) →
      getLoop c psa ix l.length acc h = (.ok (acc ++ l), h) := by
  intro l
  induction l with
  | nil =>
    intro ix acc h _ _ _ _
    rw [List.append_nil]
    rfl
  | cons x xs IH =>
    intro ix acc h harr hpos hbnd hitems
    obtain ⟨s, hs, hof⟩ := hitems 0 x (by simp)
    rw [Nat.add_zero] at hs
    have hcond : a.bound.lLbound ≤ ix ∧
        ix < a.bound.lLbound + a.bound.cElements := by
      rw [hlb]
      simp only [List.length_cons] at hbnd
      omega
    have hge : safeArrayGetElement psa ix h = (0, some s) := by
      unfold safeArrayGetElement
      simp only [harr]
      rw [if_pos hcond, hlb, Int.sub_zero, hs]
    have hsae : saeFromSafearray psa ix h = .ok s := by
      unfold saeFromSafearray
      rw [hge]
      rfl
    show getLoop c psa ix (xs.length + 1) acc h = _
    unfold getLoop
    rw [hsae]
    simp only [hof]
    have hrec := IH (ix + 1) (acc ++ [x]) h harr (by omega)
      (by simp only [List.length_cons] at hbnd; omega)
      (fun j y hjy => by
        obtain ⟨s', hs', hof'⟩ := hitems (j + 1) y (by simpa using hjy)
        refine ⟨s', ?_, hof'⟩
        rw [show (ix + 1).toNat + j = ix.toNat + (j + 1) by omega]
        exact hs')
    rw [hrec]
    simp

/-- `from_safearray` over a well-formed one-dimensional record whose
slots read back the items of `items` returns exactly `items` and
releases the record once. -/
theorem fromSafearray_of_filled {α : Type} (c : ElemCodec α) (psa : Nat)
    (h : Host) (a : SARec) (items : List α)
    (harr : h.arrays[psa]? = some a)
    (hd : a.cDims = 1) (hvt : a.vt = c.sftype)
    (hlb : a.bound.lLbound = 0)
    (hce : a.bound.cElements = items.length)
    (hloop : getLoop c psa 0 items.length [] h = (.ok items, h)) :
    fromSafearray c psa h = (.ok items, safeArrayDestroy psa h) := by
  have hdim : safeArrayGetDim psa h = 1 := by
    unfold safeArrayGetDim
    rw [list_getD_of_getElem? _ _ _ _ harr, hd]
  have hvtp : safeArrayGetVartype psa h = (0, c.sftype) := by
    unfold safeArrayGetVartype
    simp only [harr, hvt]
  have hlbp : safeArrayGetLBound psa h = (0, 0) := by
    unfold safeArrayGetLBound
    simp only [harr, hlb]
  have hubp : safeArrayGetUBound psa h = (0, (items.length : Int) - 1) := by
    unfold safeArrayGetUBound
    simp only [harr, hlb, hce]
    norm_num
  have hcount : ((items.length : Int) - 1 + 1 - 0).toNat = items.length := by
    omega
  unfold fromSafearray
  simp only [hdim, hvtp, hlbp, hubp, hcount, hloop]
  norm_num

/-- The generic array round-trip: a successful `into_safearray` of
fewer than `2^31` well-formed items through a good codec is inverted
exactly by `from_safearray`, which also releases the array record. -/
theorem intoSafearray_roundtrip {α : Type} (c : ElemCodec α) (P : α → Prop)
    (hG : GoodCodec P c) (hS : c.sftype < 65536)
    (items : List α) (h h2 : Host) (psa : Nat)
    (hwf : ∀ x ∈ items, P x) (hN : items.length < 2147483648)
    (henc : intoSafearray c items h = (.ok psa, h2)) :
    fromSafearray c psa h2 = (.ok items, safeArrayDestroy psa h2) := by
  obtain ⟨hPres, hM, hL⟩ := hG
  unfold intoSafearray safeArrayCreate at henc
  simp only at henc
  rcases hput : putLoop c h.arrays.length items 0
      { h with arrays := h.arrays ++
          [⟨u16cast c.sftype, 1, ⟨u32cast items.length, 0⟩,
            List.replicate (u32cast items.length) none⟩] } with ⟨r, hLh⟩
  rw [hput] at henc
  cases r with
  | err e => rcases e with ⟨ix, el⟩; simp at henc
  | fatal m => simp at henc
  | ok u =>
    cases u
    simp only [Prod.mk.injEq, RRes.ok.injEq] at henc
    obtain ⟨hpsa, hh2⟩ := henc
    subst hpsa
    subst hh2
    have harr0 : ({ h with arrays := h.arrays ++
        [⟨u16cast c.sftype, 1, ⟨u32cast items.length, 0⟩,
          List.replicate (u32cast items.length) none⟩] } : Host).arrays[h.arrays.length]? =
        some ⟨u16cast c.sftype, 1, ⟨u32cast items.length, 0⟩,
          List.replicate (u32cast items.length) none⟩ := by
      simp
    obtain ⟨hpre, a2, harr2, hb2, hv2, hd2, _, _, hitems⟩ :=
      putLoop_ok_elems c P hPres hM hL h.arrays.length items 0 _ hLh _
        hput hwf (by omega) harr0 rfl
        (le_of_eq (List.length_replicate _ _).symm)
    have hcele : a2.bound.cElements = items.length := by
      rw [hb2]
      exact Nat.mod_eq_of_lt (by omega)
    apply fromSafearray_of_filled c h.arrays.length hLh a2 items harr2 hd2
      (hv2.trans (Nat.mod_eq_of_lt hS)) (by rw [hb2]) hcele
    have hloop := getLoop_ok c h.arrays.length a2 (by rw [hb2]) items 0 [] hLh
      harr2 le_rfl (by rw [hcele]; simp)
      (fun j x hjx => by
        obtain ⟨s, hs, hread⟩ := hitems j x hjx
        exact ⟨s, by simpa using hs, hread hLh (List.prefix_refl _)⟩)
    simpa using hloop

theorem prefix_getD {α : Type} {l l' : List α} (hp : l <+: l') (n : Nat)
    (hn : n < l.length) (d : α) : l'.getD n d = l.getD n d := by
  obtain ⟨t, rfl⟩ := hp
  rw [List.getD_eq_getElem?_getD, List.getD_eq_getElem?_getD,
    List.getElem?_append, if_pos hn]

/-- The host-independent codecs: `toSlot` wraps the value in its slot
constructor without touching the host, and `ofSlot` unwraps it. -/
theorem pureCodec_good {α : Type} (P : α → Prop) (c : ElemCodec α)
    (mk : α → SASlot)
    (htos : ∀ a h, c.toSlot a h = (.ok (mk a), h))
    (hof : ∀ a h, P a → c.ofSlot (mk a) h = .ok a) : GoodCodec P c := by
  refine ⟨fun a h => by rw [htos]; exact ⟨rfl, rfl⟩, fun a h => by rw [htos],
    fun a h s h2 hP ht h3 _ => ?_⟩
  rw [htos] at ht
  injection ht with h1 h2eq
  injection h1 with h1
  subst h1
  exact hof a h3 hP

theorem i16Codec_good : GoodCodec (fun _ => True) i16Codec :=
  pureCodec_good _ _ (.i16v) (fun _ _ => rfl) (fun _ _ _ => rfl)

theorem i32Codec_good : GoodCodec (fun _ => True) i32Codec :=
  pureCodec_good _ _ (.i32v) (fun _ _ => rfl) (fun _ _ _ => rfl)

theorem f32Codec_good : GoodCodec (fun _ => True) f32Codec :=
  pureCodec_good _ _ (.f32v) (fun _ _ => rfl) (fun _ _ _ => rfl)

theorem f64Codec_good : GoodCodec (fun _ => True) f64Codec :=
  pureCodec_good _ _ (.f64v) (fun _ _ => rfl) (fun _ _ _ => rfl)

theorem cyCodec_good : GoodCodec (fun _ => True) cyCodec :=
  pureCodec_good _ _ (.cyv) (fun _ _ => rfl) (fun _ _ _ => rfl)

theorem dateCodec_good : GoodCodec (fun _ => True) dateCodec :=
  pureCodec_good _ _ (.datev) (fun _ _ => rfl) (fun _ _ _ => rfl)

theorem scodeCodec_good : GoodCodec (fun _ => True) scodeCodec :=
  pureCodec_good _ _ (.scodev) (fun _ _ => rfl) (fun _ _ _ => rfl)

theorem boolCodec_good : GoodCodec (fun _ => True) boolCodec :=
  pureCodec_good _ _ (fun b => .boolv (vbOfBool b)) (fun _ _ => rfl)
    (fun a _ _ => by cases a <;> rfl)

theorem decCodec_good : GoodCodec RDecimal.wf decCodec :=
  pureCodec_good _ _ (fun d => .decv (buildCDecimal d)) (fun _ _ => rfl)
    (fun a _ hw => by
      show RRes.ok (buildRustDecimal (buildCDecimal a)) = _
      rw [buildRustDecimal_buildCDecimal a hw])

theorem i8Codec_good : GoodCodec (fun _ => True) i8Codec :=
  pureCodec_good _ _ (.i8v) (fun _ _ => rfl) (fun _ _ _ => rfl)

theorem u8Codec_good : GoodCodec (fun _ => True) u8Codec :=
  pureCodec_good _ _ (.u8v) (fun _ _ => rfl) (fun _ _ _ => rfl)

theorem u16Codec_good : GoodCodec (fun _ => True) u16Codec :=
  pureCodec_good _ _ (.u16v) (fun _ _ => rfl) (fun _ _ _ => rfl)

theorem u32Codec_good : GoodCodec (fun _ => True) u32Codec :=
  pureCodec_good _ _ (.u32v) (fun _ _ => rfl) (fun _ _ _ => rfl)

theorem intCodec_good : GoodCodec (fun _ => True) intCodec :=
  pureCodec_good _ _ (.i32v) (fun _ _ => rfl) (fun _ _ _ => rfl)

theorem uintCodec_good : GoodCodec (fun _ => True) uintCodec :=
  pureCodec_good _ _ (.u32v) (fun _ _ => rfl) (fun _ _ _ => rfl)

/-- The BSTR element codec is good on strings below the `u32` length
truncation bound: the slot it writes names a fresh buffer holding the
full unit sequence, readable in any extension of the buffer store. -/
theorem bstrCodec_good :
    GoodCodec (fun s : U16Str => s.units.length < 4294967296) bstrCodec := by
  refine ⟨bstrCodec_preserves, fun a h => ?_, fun a h s h2 hP ht h3 hpre => ?_⟩
  · show h.bufs <+: (match allocateBstr a h with
      | (.ok p, h) => ((.ok (.bstrv (some p)) : RRes ElementError SASlot), h)
      | (.err bse, h) => (.err (.intoE (.BStringFailed bse)), h)
      | (.fatal m, h) => (.fatal m, h)).2.bufs
    rw [allocateBstr_spec]
    by_cases hf : h.bstrFailMask.headD false = true
    · rw [if_pos hf]
    · rw [if_neg hf]
      exact ⟨_, rfl⟩
  · have ht' : (match allocateBstr a h with
      | (.ok p, h) => ((.ok (.bstrv (some p)) : RRes ElementError SASlot), h)
      | (.err bse, h) => (.err (.intoE (.BStringFailed bse)), h)
      | (.fatal m, h) => (.fatal m, h)) = (.ok s, h2) := ht
    rw [allocateBstr_spec] at ht'
    by_cases hf : h.bstrFailMask.headD false = true
    · rw [if_pos hf] at ht'
      simp at ht'
    · rw [if_neg hf] at ht'
      simp only [Prod.mk.injEq, RRes.ok.injEq] at ht'
      obtain ⟨hs, hh2⟩ := ht'
      subst hs
      subst hh2
      have hg : h3.bufs.getD h.bufs.length [] = a.units := by
        rw [prefix_getD hpre h.bufs.length (by simp) ([] : List Nat)]
        show (h.bufs ++
          [List.take (u32cast a.units.length) a.units]).getD h.bufs.length []
            = a.units
        rw [List.getD_append_right _ _ _ _ (le_refl _)]
        simp only [Nat.sub_self, List.getD_cons_zero]
        rw [show u32cast a.units.length = a.units.length from
          Nat.mod_eq_of_lt hP, List.take_length]
      show (RRes.ok (U16Str.mk (h3.bufs.getD h.bufs.length [])) :
        RRes ElementError U16Str) = RRes.ok a
      rw [hg]

theorem bufs_snoc_getD (l : List (List Nat)) (u : List Nat) :
    (l ++ [u]).getD l.length [] = u := by
  rw [List.getD_append_right _ _ _ _ (le_refl _)]
  simp

/-- The round-trip law of the spec, proved for the entire kind
universe at once: every well-formed value — any kind except the two
inline `VT_DECIMAL` impls, whose payload the encoder destroys — that
`into_variant` encodes successfully is decoded back exactly by
`from_variant` at its own kind. -/
theorem encodeVar_roundtrip (v : VValue) :
    ∀ (h h2 : Host) (rec : VarRec),
      VValue.wfP v →
      encodeVar v h = (.ok rec, h2) →
      ∃ h3, decodeVar v.vkind rec h2 = (.ok v, h3) := by
  induction v
  case vbool b =>
    intro h h2 rec _ henc
    simp only [encodeVar, Prod.mk.injEq, RRes.ok.injEq] at henc
    obtain ⟨hrec, hh⟩ := henc
    subst hrec
    subst hh
    cases b <;> exact ⟨_, rfl⟩
  case vboxBool b =>
    intro h h2 rec _ henc
    simp only [encodeVar, Prod.mk.injEq, RRes.ok.injEq] at henc
    obtain ⟨hrec, hh⟩ := henc
    subst hrec
    subst hh
    cases b <;> exact ⟨_, rfl⟩
  case vboxDecW d =>
    intro h h2 rec hwf henc
    simp only [encodeVar, Prod.mk.injEq, RRes.ok.injEq] at henc
    obtain ⟨hrec, hh⟩ := henc
    subst hrec
    subst hh
    refine ⟨h, ?_⟩
    show (RRes.ok (VValue.vboxDecW (buildRustDecimal (buildCDecimal d))), h)
      = _
    rw [buildRustDecimal_buildCDecimal d hwf]
  case vboxDec d =>
    intro h h2 rec hwf henc
    simp only [encodeVar, Prod.mk.injEq, RRes.ok.injEq] at henc
    obtain ⟨hrec, hh⟩ := henc
    subst hrec
    subst hh
    refine ⟨h, ?_⟩
    show (RRes.ok (VValue.vboxDec (buildRustDecimal (buildCDecimal d))), h)
      = _
    rw [buildRustDecimal_buildCDecimal d hwf]
  case vdecW d =>
    intro h h2 rec hwf henc
    exact False.elim hwf
  case vdec d =>
    intro h h2 rec hwf henc
    exact False.elim hwf
  case vstring s =>
    intro h h2 rec hwf henc
    simp only [encodeVar] at henc
    rw [allocateBstr_spec] at henc
    by_cases hf : h.bstrFailMask.headD false = true
    · rw [if_pos hf] at henc
      simp at henc
    · rw [if_neg hf] at henc
      simp only [Prod.mk.injEq, RRes.ok.injEq] at henc
      obtain ⟨hrec, hh⟩ := henc
      subst hrec
      refine ⟨h2, ?_⟩
      show (RRes.ok (VValue.vstring
        (u16DecodeLossy (h2.bufs.getD h.bufs.length []))), h2) = _
      have hb : h2.bufs = h.bufs ++
          [(u16FromStr s).take (u32cast (u16FromStr s).length)] := by
        rw [← hh]
      rw [hb, bufs_snoc_getD, show u32cast (u16FromStr s).length
        = (u16FromStr s).length from Nat.mod_eq_of_lt hwf,
        List.take_length, u16DecodeLossy_u16FromStr]
  case vboxString s =>
    intro h h2 rec hwf henc
    simp only [encodeVar] at henc
    rw [allocateBstr_spec] at henc
    by_cases hf : h.bstrFailMask.headD false = true
    · rw [if_pos hf] at henc
      simp at henc
    · rw [if_neg hf] at henc
      simp only [Prod.mk.injEq, RRes.ok.injEq] at henc
      obtain ⟨hrec, hh⟩ := henc
      subst hrec
      refine ⟨h2, ?_⟩
      show (RRes.ok (VValue.vboxString
        (u16DecodeLossy (h2.bufs.getD h.bufs.length []))), h2) = _
      have hb : h2.bufs = h.bufs ++
          [(u16FromStr s).take (u32cast (u16FromStr s).length)] := by
        rw [← hh]
      rw [hb, bufs_snoc_getD, show u32cast (u16FromStr s).length
        = (u16FromStr s).length from Nat.mod_eq_of_lt hwf,
        List.take_length, u16DecodeLossy_u16FromStr]
  case vvariant inner ih =>
    intro h h2 rec hwf henc
    simp only [encodeVar] at henc
    rcases hin : encodeVar inner h with ⟨ri, hI⟩
    rw [hin] at henc
    cases ri with
    | err e => simp at henc
    | fatal m => simp at henc
    | ok irec =>
      simp only [Prod.mk.injEq, RRes.ok.injEq] at henc
      obtain ⟨hrec, hh⟩ := henc
      subst hrec
      subst hh
      obtain ⟨h3, hdec⟩ := ih h hI irec hwf hin
      refine ⟨bumpClear h3, ?_⟩
      have hk : (VValue.vvariant inner).vkind =
        VKind.kvariant inner.vkind := rfl
      rw [hk]
      have hred : decodeVar (VKind.kvariant inner.vkind)
          (mkVar 12 (.pvarVal (some (mkVar 12 (.pvarVal (some irec)))))) hI =
          (match decodeVar inner.vkind irec hI with
           | (.ok v, h) =>
             ((.ok (.vvariant v) : RRes FromVariantError VValue), bumpClear h)
           | (.err _, h) => (.fatal "called Result unwrap on an Err value", h)
           | (.fatal m, h) => (.fatal m, h)) := rfl
      rw [hred, hdec]
  case varr a =>
    intro h h2 rec hwf henc
    cases a with
    | i16s l =>
      simp only [encodeVar, encodeSAVal] at henc
      rcases hias : intoSafearray i16Codec l h with ⟨ra, hA⟩
      rw [hias] at henc
      cases ra with
      | err e => simp at henc
      | fatal m => simp at henc
      | ok psa =>
        simp only [Prod.mk.injEq, RRes.ok.injEq] at henc
        obtain ⟨hrec, hh⟩ := henc
        subst hrec
        subst hh
        have hrt := intoSafearray_roundtrip i16Codec (fun _ => True)
          i16Codec_good (by decide) l h hA psa (fun _ _ => trivial) hwf hias
        refine ⟨safeArrayDestroy psa hA, ?_⟩
        have hk : (VValue.varr (SAVal.i16s l)).vkind =
          VKind.karr SAKind.ki16 := rfl
        rw [hk]
        show decodeArr i16Codec SAVal.i16s (some psa) hA =
          ((RRes.ok (VValue.varr (SAVal.i16s l)) :
            RRes FromVariantError VValue), safeArrayDestroy psa hA)
        unfold decodeArr
        dsimp only
        rw [hrt]
    | i32s l =>
      simp only [encodeVar, encodeSAVal] at henc
      rcases hias : intoSafearray i32Codec l h with ⟨ra, hA⟩
      rw [hias] at henc
      cases ra with
      | err e => simp at henc
      | fatal m => simp at henc
      | ok psa =>
        simp only [Prod.mk.injEq, RRes.ok.injEq] at henc
        obtain ⟨hrec, hh⟩ := henc
        subst hrec
        subst hh
        have hrt := intoSafearray_roundtrip i32Codec (fun _ => True)
          i32Codec_good (by decide) l h hA psa (fun _ _ => trivial) hwf hias
        refine ⟨safeArrayDestroy psa hA, ?_⟩
        have hk : (VValue.varr (SAVal.i32s l)).vkind =
          VKind.karr SAKind.ki32 := rfl
        rw [hk]
        show decodeArr i32Codec SAVal.i32s (some psa) hA =
          ((RRes.ok (VValue.varr (SAVal.i32s l)) :
            RRes FromVariantError VValue), safeArrayDestroy psa hA)
        unfold decodeArr
        dsimp only
        rw [hrt]
    | f32s l =>
      simp only [encodeVar, encodeSAVal] at henc
      rcases hias : intoSafearray f32Codec l h with ⟨ra, hA⟩
      rw [hias] at henc
      cases ra with
      | err e => simp at henc
      | fatal m => simp at henc
      | ok psa =>
        simp only [Prod.mk.injEq, RRes.ok.injEq] at henc
        obtain ⟨hrec, hh⟩ := henc
        subst hrec
        subst hh
        have hrt := intoSafearray_roundtrip f32Codec (fun _ => True)
          f32Codec_good (by decide) l h hA psa (fun _ _ => trivial) hwf hias
        refine ⟨safeArrayDestroy psa hA, ?_⟩
        have hk : (VValue.varr (SAVal.f32s l)).vkind =
          VKind.karr SAKind.kf32 := rfl
        rw [hk]
        show decodeArr f32Codec SAVal.f32s (some psa) hA =
          ((RRes.ok (VValue.varr (SAVal.f32s l)) :
            RRes FromVariantError VValue), safeArrayDestroy psa hA)
        unfold decodeArr
        dsimp only
        rw [hrt]
    | f64s l =>
      simp only [encodeVar, encodeSAVal] at henc
      rcases hias : intoSafearray f64Codec l h with ⟨ra, hA⟩
      rw [hias] at henc
      cases ra with
      | err e => simp at henc
      | fatal m => simp at henc
      | ok psa =>
        simp only [Prod.mk.injEq, RRes.ok.injEq] at henc
        obtain ⟨hrec, hh⟩ := henc
        subst hrec
        subst hh
        have hrt := intoSafearray_roundtrip f64Codec (fun _ => True)
          f64Codec_good (by decide) l h hA psa (fun _ _ => trivial) hwf hias
        refine ⟨safeArrayDestroy psa hA, ?_⟩
        have hk : (VValue.varr (SAVal.f64s l)).vkind =
          VKind.karr SAKind.kf64 := rfl
        rw [hk]
        show decodeArr f64Codec SAVal.f64s (some psa) hA =
          ((RRes.ok (VValue.varr (SAVal.f64s l)) :
            RRes FromVariantError VValue), safeArrayDestroy psa hA)
        unfold decodeArr
        dsimp only
        rw [hrt]
    | cys l =>
      simp only [encodeVar, encodeSAVal] at henc
      rcases hias : intoSafearray cyCodec l h with ⟨ra, hA⟩
      rw [hias] at henc
      cases ra with
      | err e => simp at henc
      | fatal m => simp at henc
      | ok psa =>
        simp only [Prod.mk.injEq, RRes.ok.injEq] at henc
        obtain ⟨hrec, hh⟩ := henc
        subst hrec
        subst hh
        have hrt := intoSafearray_roundtrip cyCodec (fun _ => True)
          cyCodec_good (by decide) l h hA psa (fun _ _ => trivial) hwf hias
        refine ⟨safeArrayDestroy psa hA, ?_⟩
        have hk : (VValue.varr (SAVal.cys l)).vkind =
          VKind.karr SAKind.kcy := rfl
        rw [hk]
        show decodeArr cyCodec SAVal.cys (some psa) hA =
          ((RRes.ok (VValue.varr (SAVal.cys l)) :
            RRes FromVariantError VValue), safeArrayDestroy psa hA)
        unfold decodeArr
        dsimp only
        rw [hrt]
    | dates l =>
      simp only [encodeVar, encodeSAVal] at henc
      rcases hias : intoSafearray dateCodec l h with ⟨ra, hA⟩
      rw [hias] at henc
      cases ra with
      | err e => simp at henc
      | fatal m => simp at henc
      | ok psa =>
        simp only [Prod.mk.injEq, RRes.ok.injEq] at henc
        obtain ⟨hrec, hh⟩ := henc
        subst hrec
        subst hh
        have hrt := intoSafearray_roundtrip dateCodec (fun _ => True)
          dateCodec_good (by decide) l h hA psa (fun _ _ => trivial) hwf hias
        refine ⟨safeArrayDestroy psa hA, ?_⟩
        have hk : (VValue.varr (SAVal.dates l)).vkind =
          VKind.karr SAKind.kdate := rfl
        rw [hk]
        show decodeArr dateCodec SAVal.dates (some psa) hA =
          ((RRes.ok (VValue.varr (SAVal.dates l)) :
            RRes FromVariantError VValue), safeArrayDestroy psa hA)
        unfold decodeArr
        dsimp only
        rw [hrt]
    | bstrs l =>
      simp only [encodeVar, encodeSAVal] at henc
      rcases hias : intoSafearray bstrCodec l h with ⟨ra, hA⟩
      rw [hias] at henc
      cases ra with
      | err e => simp at henc
      | fatal m => simp at henc
      | ok psa =>
        simp only [Prod.mk.injEq, RRes.ok.injEq] at henc
        obtain ⟨hrec, hh⟩ := henc
        subst hrec
        subst hh
        have hrt := intoSafearray_roundtrip bstrCodec (fun s : U16Str => s.units.length < 4294967296)
          bstrCodec_good (by decide) l h hA psa hwf.1 hwf.2 hias
        refine ⟨safeArrayDestroy psa hA, ?_⟩
        have hk : (VValue.varr (SAVal.bstrs l)).vkind =
          VKind.karr SAKind.kbstr := rfl
        rw [hk]
        show decodeArr bstrCodec SAVal.bstrs (some psa) hA =
          ((RRes.ok (VValue.varr (SAVal.bstrs l)) :
            RRes FromVariantError VValue), safeArrayDestroy psa hA)
        unfold decodeArr
        dsimp only
        rw [hrt]
    | scodes l =>
      simp only [encodeVar, encodeSAVal] at henc
      rcases hias : intoSafearray scodeCodec l h with ⟨ra, hA⟩
      rw [hias] at henc
      cases ra with
      | err e => simp at henc
      | fatal m => simp at henc
      | ok psa =>
        simp only [Prod.mk.injEq, RRes.ok.injEq] at henc
        obtain ⟨hrec, hh⟩ := henc
        subst hrec
        subst hh
        have hrt := intoSafearray_roundtrip scodeCodec (fun _ => True)
          scodeCodec_good (by decide) l h hA psa (fun _ _ => trivial) hwf hias
        refine ⟨safeArrayDestroy psa hA, ?_⟩
        have hk : (VValue.varr (SAVal.scodes l)).vkind =
          VKind.karr SAKind.kscode := rfl
        rw [hk]
        show decodeArr scodeCodec SAVal.scodes (some psa) hA =
          ((RRes.ok (VValue.varr (SAVal.scodes l)) :
            RRes FromVariantError VValue), safeArrayDestroy psa hA)
        unfold decodeArr
        dsimp only
        rw [hrt]
    | bools l =>
      simp only [encodeVar, encodeSAVal] at henc
      rcases hias : intoSafearray boolCodec l h with ⟨ra, hA⟩
      rw [hias] at henc
      cases ra with
      | err e => simp at henc
      | fatal m => simp at henc
      | ok psa =>
        simp only [Prod.mk.injEq, RRes.ok.injEq] at henc
        obtain ⟨hrec, hh⟩ := henc
        subst hrec
        subst hh
        have hrt := intoSafearray_roundtrip boolCodec (fun _ => True)
          boolCodec_good (by decide) l h hA psa (fun _ _ => trivial) hwf hias
        refine ⟨safeArrayDestroy psa hA, ?_⟩
        have hk : (VValue.varr (SAVal.bools l)).vkind =
          VKind.karr SAKind.kbool := rfl
        rw [hk]
        show decodeArr boolCodec SAVal.bools (some psa) hA =
          ((RRes.ok (VValue.varr (SAVal.bools l)) :
            RRes FromVariantError VValue), safeArrayDestroy psa hA)
        unfold decodeArr
        dsimp only
        rw [hrt]
    | decs l =>
      simp only [encodeVar, encodeSAVal] at henc
      rcases hias : intoSafearray decCodec l h with ⟨ra, hA⟩
      rw [hias] at henc
      cases ra with
      | err e => simp at henc
      | fatal m => simp at henc
      | ok psa =>
        simp only [Prod.mk.injEq, RRes.ok.injEq] at henc
        obtain ⟨hrec, hh⟩ := henc
        subst hrec
        subst hh
        have hrt := intoSafearray_roundtrip decCodec RDecimal.wf
          decCodec_good (by decide) l h hA psa hwf.1 hwf.2 hias
        refine ⟨safeArrayDestroy psa hA, ?_⟩
        have hk : (VValue.varr (SAVal.decs l)).vkind =
          VKind.karr SAKind.kdec := rfl
        rw [hk]
        show decodeArr decCodec SAVal.decs (some psa) hA =
          ((RRes.ok (VValue.varr (SAVal.decs l)) :
            RRes FromVariantError VValue), safeArrayDestroy psa hA)
        unfold decodeArr
        dsimp only
        rw [hrt]
    | i8s l =>
      simp only [encodeVar, encodeSAVal] at henc
      rcases hias : intoSafearray i8Codec l h with ⟨ra, hA⟩
      rw [hias] at henc
      cases ra with
      | err e => simp at henc
      | fatal m => simp at henc
      | ok psa =>
        simp only [Prod.mk.injEq, RRes.ok.injEq] at henc
        obtain ⟨hrec, hh⟩ := henc
        subst hrec
        subst hh
        have hrt := intoSafearray_roundtrip i8Codec (fun _ => True)
          i8Codec_good (by decide) l h hA psa (fun _ _ => trivial) hwf hias
        refine ⟨safeArrayDestroy psa hA, ?_⟩
        have hk : (VValue.varr (SAVal.i8s l)).vkind =
          VKind.karr SAKind.ki8 := rfl
        rw [hk]
        show decodeArr i8Codec SAVal.i8s (some psa) hA =
          ((RRes.ok (VValue.varr (SAVal.i8s l)) :
            RRes FromVariantError VValue), safeArrayDestroy psa hA)
        unfold decodeArr
        dsimp only
        rw [hrt]
    | u8s l =>
      simp only [encodeVar, encodeSAVal] at henc
      rcases hias : intoSafearray u8Codec l h with ⟨ra, hA⟩
      rw [hias] at henc
      cases ra with
      | err e => simp at henc
      | fatal m => simp at henc
      | ok psa =>
        simp only [Prod.mk.injEq, RRes.ok.injEq] at henc
        obtain ⟨hrec, hh⟩ := henc
        subst hrec
        subst hh
        have hrt := intoSafearray_roundtrip u8Codec (fun _ => True)
          u8Codec_good (by decide) l h hA psa (fun _ _ => trivial) hwf hias
        refine ⟨safeArrayDestroy psa hA, ?_⟩
        have hk : (VValue.varr (SAVal.u8s l)).vkind =
          VKind.karr SAKind.ku8 := rfl
        rw [hk]
        show decodeArr u8Codec SAVal.u8s (some psa) hA =
          ((RRes.ok (VValue.varr (SAVal.u8s l)) :
            RRes FromVariantError VValue), safeArrayDestroy psa hA)
        unfold decodeArr
        dsimp only
        rw [hrt]
    | u16s l =>
      simp only [encodeVar, encodeSAVal] at henc
      rcases hias : intoSafearray u16Codec l h with ⟨ra, hA⟩
      rw [hias] at henc
      cases ra with
      | err e => simp at henc
      | fatal m => simp at henc
      | ok psa =>
        simp only [Prod.mk.injEq, RRes.ok.injEq] at henc
        obtain ⟨hrec, hh⟩ := henc
        subst hrec
        subst hh
        have hrt := intoSafearray_roundtrip u16Codec (fun _ => True)
          u16Codec_good (by decide) l h hA psa (fun _ _ => trivial) hwf hias
        refine ⟨safeArrayDestroy psa hA, ?_⟩
        have hk : (VValue.varr (SAVal.u16s l)).vkind =
          VKind.karr SAKind.ku16 := rfl
        rw [hk]
        show decodeArr u16Codec SAVal.u16s (some psa) hA =
          ((RRes.ok (VValue.varr (SAVal.u16s l)) :
            RRes FromVariantError VValue), safeArrayDestroy psa hA)
        unfold decodeArr
        dsimp only
        rw [hrt]
    | u32s l =>
      simp only [encodeVar, encodeSAVal] at henc
      rcases hias : intoSafearray u32Codec l h with ⟨ra, hA⟩
      rw [hias] at henc
      cases ra with
      | err e => simp at henc
      | fatal m => simp at henc
      | ok psa =>
        simp only [Prod.mk.injEq, RRes.ok.injEq] at henc
        obtain ⟨hrec, hh⟩ := henc
        subst hrec
        subst hh
        have hrt := intoSafearray_roundtrip u32Codec (fun _ => True)
          u32Codec_good (by decide) l h hA psa (fun _ _ => trivial) hwf hias
        refine ⟨safeArrayDestroy psa hA, ?_⟩
        have hk : (VValue.varr (SAVal.u32s l)).vkind =
          VKind.karr SAKind.ku32 := rfl
        rw [hk]
        show decodeArr u32Codec SAVal.u32s (some psa) hA =
          ((RRes.ok (VValue.varr (SAVal.u32s l)) :
            RRes FromVariantError VValue), safeArrayDestroy psa hA)
        unfold decodeArr
        dsimp only
        rw [hrt]
    | ints l =>
      simp only [encodeVar, encodeSAVal] at henc
      rcases hias : intoSafearray intCodec l h with ⟨ra, hA⟩
      rw [hias] at henc
      cases ra with
      | err e => simp at henc
      | fatal m => simp at henc
      | ok psa =>
        simp only [Prod.mk.injEq, RRes.ok.injEq] at henc
        obtain ⟨hrec, hh⟩ := henc
        subst hrec
        subst hh
        have hrt := intoSafearray_roundtrip intCodec (fun _ => True)
          intCodec_good (by decide) l h hA psa (fun _ _ => trivial) hwf hias
        refine ⟨safeArrayDestroy psa hA, ?_⟩
        have hk : (VValue.varr (SAVal.ints l)).vkind =
          VKind.karr SAKind.kint := rfl
        rw [hk]
        show decodeArr intCodec SAVal.ints (some psa) hA =
          ((RRes.ok (VValue.varr (SAVal.ints l)) :
            RRes FromVariantError VValue), safeArrayDestroy psa hA)
        unfold decodeArr
        dsimp only
        rw [hrt]
    | uints l =>
      simp only [encodeVar, encodeSAVal] at henc
      rcases hias : intoSafearray uintCodec l h with ⟨ra, hA⟩
      rw [hias] at henc
      cases ra with
      | err e => simp at henc
      | fatal m => simp at henc
      | ok psa =>
        simp only [Prod.mk.injEq, RRes.ok.injEq] at henc
        obtain ⟨hrec, hh⟩ := henc
        subst hrec
        subst hh
        have hrt := intoSafearray_roundtrip uintCodec (fun _ => True)
          uintCodec_good (by decide) l h hA psa (fun _ _ => trivial) hwf hias
        refine ⟨safeArrayDestroy psa hA, ?_⟩
        have hk : (VValue.varr (SAVal.uints l)).vkind =
          VKind.karr SAKind.kuint := rfl
        rw [hk]
        show decodeArr uintCodec SAVal.uints (some psa) hA =
          ((RRes.ok (VValue.varr (SAVal.uints l)) :
            RRes FromVariantError VValue), safeArrayDestroy psa hA)
        unfold decodeArr
        dsimp only
        rw [hrt]
  all_goals
    intro h h2 rec _ henc
    simp only [encodeVar, Prod.mk.injEq, RRes.ok.injEq] at henc
    obtain ⟨hrec, hh⟩ := henc
    subst hrec
    subst hh
    exact ⟨_, rfl⟩
